import Mathlib

/-!
Verification of the case-matching backend.

Shallow embedding of the match-finding and image-comparison pipeline of the
missing-persons backend:

* `src/services/imageMatchingService.js` — similarity engine and feature
  fallback (`calculateSimilarity`, `generateSimpleImageFeatures`,
  `processImageForMatching`);
* `src/services/caseService.js` — the vector-based resolver (`findMatches`);
* `src/services/faceMatchingService.js` — the external face-comparison
  oracle adapter (`compareTwoFaces`, `compareMultipleFaces`,
  `compareReportImages`);
* `src/controllers/faceMatchController.js` — the oracle-based resolver
  endpoints (`findMatchesForParentReport`, `findMatchesForFinderReport`,
  `compareSpecificReports`).

Modelling conventions: JavaScript numbers are modelled as real numbers
(exact arithmetic); embedding vectors as `List ℝ`; binary image buffers as
`List (Fin 256)` (byte sequences); the relational store as an explicit
`Db` record threaded through the operations; external effects (network
fetches, oracle calls, notification delivery) as environment records that
fix the outcome of each effect, so that a single invocation is a pure
function of the database and the environment.  A JavaScript value read
out of bounds is `undefined` and arithmetic on it yields `NaN`; where that
matters (the fallback fingerprint) numbers are wrapped in `JsNum`, which
has an explicit `nan` constructor.
-/

noncomputable section

namespace CcBackend

open scoped Classical

/-! ## Similarity engine — `imageMatchingService.js`, `calculateSimilarity`

The JS loop accumulates `dotProduct`, `norm1`, `norm2` in one pass over the
indices `0 .. e1.length - 1`; the two lengths are equal at that point, so
the accumulators are the pairwise dot product and the two sums of squares.
-/

/-- Model of `dotProduct += embedding1[i] * embedding2[i]` accumulated over the
common indices of the two vectors. -/
def dotProduct : List ℝ → List ℝ → ℝ
  | x :: xs, y :: ys => x * y + dotProduct xs ys
  | _, _ => 0

/-- Model of `norm1 += embedding1[i] * embedding1[i]` accumulated over a vector
(the squared Euclidean norm before `Math.sqrt`). -/
def sumSquares : List ℝ → ℝ
  | [] => 0
  | x :: xs => x * x + sumSquares xs

/-- Model of `calculateSimilarity(embedding1, embedding2)` from
`imageMatchingService.js` (lines 124–161), on two numeric arrays.  Checks
length equality, computes the cosine of the two vectors, rejects
zero-norm vectors, and rescales from [-1,1] to [0,1] via
`Math.max(0, (similarity + 1) / 2)`. -/
def calculateSimilarity (e1 e2 : List ℝ) : ℝ :=
  if e1.length ≠ e2.length then 0
  else if Real.sqrt (sumSquares e1) = 0 ∨ Real.sqrt (sumSquares e2) = 0 then 0
  else max 0 ((dotProduct e1 e2 / (Real.sqrt (sumSquares e1) * Real.sqrt (sumSquares e2)) + 1) / 2)

/-- A JavaScript argument as seen by `calculateSimilarity`: either an
array of numbers or some non-array value (rejected by the
`Array.isArray` guards at the top of the function). -/
inductive JsValue where
  | arr (elems : List ℝ)
  | nonArray
deriving DecidableEq

/-- Model of `calculateSimilarity` including the `Array.isArray` guards: a
non-array argument yields 0 before any arithmetic happens. -/
def calculateSimilarityJs : JsValue → JsValue → ℝ
  | .arr a, .arr b => calculateSimilarity a b
  | _, _ => 0

/-! ### Basic lemmas about the similarity engine -/

theorem sumSquares_nonneg (l : List ℝ) : 0 ≤ sumSquares l := by
  induction l with
  | nil => simp [sumSquares]
  | cons x xs ih => simpa [sumSquares] using add_nonneg (mul_self_nonneg x) ih

theorem dotProduct_comm (a b : List ℝ) : dotProduct a b = dotProduct b a := by
  induction a generalizing b with
  | nil => cases b <;> simp [dotProduct]
  | cons x xs ih =>
    cases b with
    | nil => simp [dotProduct]
    | cons y ys => simp [dotProduct, ih, mul_comm]

theorem dotProduct_self (a : List ℝ) : dotProduct a a = sumSquares a := by
  induction a with
  | nil => simp [dotProduct, sumSquares]
  | cons x xs ih => simp [dotProduct, sumSquares, ih]

theorem sumSquares_pos_of_mem {x : ℝ} {l : List ℝ} (hx : x ∈ l) (hx0 : x ≠ 0) :
    0 < sumSquares l := by
  induction l with
  | nil => simp at hx
  | cons y ys ih =>
    rcases List.mem_cons.1 hx with rfl | hmem
    · have : 0 < x * x := mul_self_pos.2 hx0
      have := sumSquares_nonneg ys
      simp only [sumSquares]; linarith
    · have := ih hmem
      have : 0 ≤ y * y := mul_self_nonneg y
      simp only [sumSquares]; linarith

/-- One step of the inductive Cauchy–Schwarz argument. -/
theorem cs_step (x y d A B : ℝ) (hd : d ^ 2 ≤ A * B) (hA : 0 ≤ A) (hB : 0 ≤ B) :
    (x * y + d) ^ 2 ≤ (x ^ 2 + A) * (y ^ 2 + B) := by
  rcases eq_or_lt_of_le hA with h0 | hApos
  · have hd0 : d = 0 := by nlinarith [sq_nonneg d]
    subst hd0
    nlinarith [mul_nonneg (sq_nonneg x) hB]
  · nlinarith [sq_nonneg (x * d - y * A),
      mul_nonneg (sq_nonneg x) (sub_nonneg.2 hd),
      mul_nonneg hApos.le (sub_nonneg.2 hd)]

/-- Cauchy–Schwarz for the list-level dot product. -/
theorem dotProduct_sq_le (a b : List ℝ) :
    dotProduct a b ^ 2 ≤ sumSquares a * sumSquares b := by
  induction a generalizing b with
  | nil => cases b <;> simp [dotProduct, sumSquares]
  | cons x xs ih =>
    cases b with
    | nil =>
      simp only [dotProduct, sumSquares]
      nlinarith [sumSquares_nonneg (x :: xs)]
    | cons y ys =>
      have h := ih ys
      have step := cs_step x y (dotProduct xs ys) (sumSquares xs) (sumSquares ys) h
        (sumSquares_nonneg xs) (sumSquares_nonneg ys)
      simp only [dotProduct, sumSquares]
      nlinarith [step]

theorem abs_dotProduct_le (a b : List ℝ) :
    |dotProduct a b| ≤ Real.sqrt (sumSquares a) * Real.sqrt (sumSquares b) := by
  have h1 : |dotProduct a b| = Real.sqrt (dotProduct a b ^ 2) := by
    rw [Real.sqrt_sq_eq_abs]
  rw [h1, ← Real.sqrt_mul (sumSquares_nonneg a)]
  exact Real.sqrt_le_sqrt (dotProduct_sq_le a b)

/-- The similarity score always lies in [0, 1]. -/
theorem calculateSimilarity_mem_Icc (a b : List ℝ) :
    0 ≤ calculateSimilarity a b ∧ calculateSimilarity a b ≤ 1 := by
  unfold calculateSimilarity
  by_cases hlen : a.length ≠ b.length
  · simp [hlen]
  · simp only [hlen, if_false]
    by_cases hz : Real.sqrt (sumSquares a) = 0 ∨ Real.sqrt (sumSquares b) = 0
    · simp [hz]
    · simp only [hz, if_false]
      push_neg at hz
      obtain ⟨ha, hb⟩ := hz
      have hA : 0 < Real.sqrt (sumSquares a) :=
        lt_of_le_of_ne (Real.sqrt_nonneg _) (Ne.symm ha)
      have hB : 0 < Real.sqrt (sumSquares b) :=
        lt_of_le_of_ne (Real.sqrt_nonneg _) (Ne.symm hb)
      constructor
      · exact le_max_left _ _
      · have hd : dotProduct a b ≤ Real.sqrt (sumSquares a) * Real.sqrt (sumSquares b) :=
          (le_abs_self _).trans (abs_dotProduct_le a b)
        have hpos : 0 < Real.sqrt (sumSquares a) * Real.sqrt (sumSquares b) :=
          mul_pos hA hB
        have hq : dotProduct a b / (Real.sqrt (sumSquares a) * Real.sqrt (sumSquares b)) ≤ 1 :=
          (div_le_one hpos).2 hd
        have : (dotProduct a b / (Real.sqrt (sumSquares a) * Real.sqrt (sumSquares b)) + 1) / 2 ≤ 1 := by
          linarith
        simp only [max_le_iff]
        exact ⟨by norm_num, this⟩

/-- Symmetry of the similarity score. -/
theorem calculateSimilarity_comm (a b : List ℝ) :
    calculateSimilarity a b = calculateSimilarity b a := by
  unfold calculateSimilarity
  by_cases hlen : a.length = b.length
  · simp only [hlen, ne_eq, not_true_eq_false, if_false, ite_not]
    rw [dotProduct_comm]
    by_cases hz : Real.sqrt (sumSquares a) = 0 ∨ Real.sqrt (sumSquares b) = 0
    · have hz' : Real.sqrt (sumSquares b) = 0 ∨ Real.sqrt (sumSquares a) = 0 := hz.symm
      simp [hz, hz']
    · have hz' : ¬(Real.sqrt (sumSquares b) = 0 ∨ Real.sqrt (sumSquares a) = 0) := by
        intro h; exact hz h.symm
      simp [hz, hz', mul_comm]
  · have hlen' : b.length ≠ a.length := fun h => hlen h.symm
    simp [hlen, hlen']

/-- Self-similarity of a vector with a non-zero entry is exactly 1. -/
theorem calculateSimilarity_self {v : List ℝ} (hv : ∃ x ∈ v, x ≠ 0) :
    calculateSimilarity v v = 1 := by
  obtain ⟨x, hx, hx0⟩ := hv
  have hS : 0 < sumSquares v := sumSquares_pos_of_mem hx hx0
  have hsqrt : 0 < Real.sqrt (sumSquares v) := Real.sqrt_pos.2 hS
  unfold calculateSimilarity
  simp only [ne_eq, not_true_eq_false, if_false, ite_not]
  have hz : ¬(Real.sqrt (sumSquares v) = 0 ∨ Real.sqrt (sumSquares v) = 0) := by
    simp [hsqrt.ne']
  simp only [if_true, hz, if_false]
  rw [dotProduct_self, Real.mul_self_sqrt hS.le, div_self hS.ne']
  norm_num

/-- Zero similarity when the two argument lengths differ. -/
theorem calculateSimilarity_length_ne {a b : List ℝ} (h : a.length ≠ b.length) :
    calculateSimilarity a b = 0 := by
  unfold calculateSimilarity
  simp [h]

/-- Zero similarity when either vector has zero (squared) norm. -/
theorem calculateSimilarity_zero_norm {a b : List ℝ}
    (h : sumSquares a = 0 ∨ sumSquares b = 0) :
    calculateSimilarity a b = 0 := by
  unfold calculateSimilarity
  rcases h with h | h <;>
    simp [h, Real.sqrt_eq_zero', le_refl]

/-- Concrete evaluation: two identical unit basis vectors score 1. -/
theorem calcSim_basis_self : calculateSimilarity [1, 0, 0] [1, 0, 0] = 1 :=
  calculateSimilarity_self ⟨1, by simp, one_ne_zero⟩

/-- Concrete evaluation: `[1,0,0,0]` against `[2,4,2,1]` has cosine 2/5 and
rescaled score exactly 7/10 — the threshold boundary. -/
theorem calcSim_boundary : calculateSimilarity [1, 0, 0, 0] [2, 4, 2, 1] = 7 / 10 := by
  have ha : sumSquares [(1 : ℝ), 0, 0, 0] = 1 := by norm_num [sumSquares]
  have hb : sumSquares [(2 : ℝ), 4, 2, 1] = 25 := by norm_num [sumSquares]
  have hd : dotProduct [(1 : ℝ), 0, 0, 0] [2, 4, 2, 1] = 2 := by norm_num [dotProduct]
  have hsa : Real.sqrt (sumSquares [(1 : ℝ), 0, 0, 0]) = 1 := by rw [ha, Real.sqrt_one]
  have hsb : Real.sqrt (sumSquares [(2 : ℝ), 4, 2, 1]) = 5 := by
    rw [hb, show (25 : ℝ) = 5 ^ 2 by norm_num, Real.sqrt_sq (by norm_num : (0 : ℝ) ≤ 5)]
  unfold calculateSimilarity
  rw [hsa, hsb, hd]
  rw [if_neg (by simp), if_neg (by norm_num)]
  rw [show (2 : ℝ) / (1 * 5) = 2 / 5 by norm_num]
  rw [max_eq_right (by norm_num : (0 : ℝ) ≤ (2 / 5 + 1) / 2)]
  norm_num

/-- Concrete evaluation: orthogonal unit vectors score 1/2 (the rescaled
cosine of 0), which is strictly below the 0.7 threshold. -/
theorem calcSim_orthogonal : calculateSimilarity [1, 0, 0] [0, 1, 0] = 1 / 2 := by
  have ha : sumSquares [(1 : ℝ), 0, 0] = 1 := by norm_num [sumSquares]
  have hb : sumSquares [(0 : ℝ), 1, 0] = 1 := by norm_num [sumSquares]
  have hd : dotProduct [(1 : ℝ), 0, 0] [0, 1, 0] = 0 := by norm_num [dotProduct]
  unfold calculateSimilarity
  rw [ha, hb, hd, Real.sqrt_one]
  rw [if_neg (by simp), if_neg (by norm_num)]
  rw [max_eq_right (by norm_num : (0 : ℝ) ≤ ((0 : ℝ) / (1 * 1) + 1) / 2)]
  norm_num

/-! ## Feature extractor — `imageMatchingService.js`,
`generateSimpleImageFeatures` and `processImageForMatching` -/

/-- A JavaScript number that may be `NaN`.  Indexing a `Buffer` out of
bounds yields `undefined`, and `undefined / 255` is `NaN`. -/
inductive JsNum where
  | num (x : ℝ)
  | nan

/-- Model of `generateSimpleImageFeatures(imageBuffer)` (lines 97–116), normal
path: pushes `imageBuffer.length % 1000 / 1000` followed by 128 byte
samples `imageBuffer[Math.floor((i / 128) * imageBuffer.length)] / 255`
for `i = 0 .. 127`.  On an empty buffer the sampled index reads out of
bounds, so the sample is `NaN`. -/
def generateSimpleImageFeatures (buf : List (Fin 256)) : List JsNum :=
  JsNum.num ((buf.length % 1000 : ℕ) / 1000) ::
    (List.range 128).map (fun i =>
      match buf.get? (i * buf.length / 128) with
      | some b => JsNum.num ((b : ℕ) / 255)
      | none => JsNum.nan)

/-- Model of `generateSimpleImageFeatures`, internal-failure path (the `catch`
branch): `new Array(128).fill(0)`. -/
def generateSimpleImageFeaturesFailure : List JsNum :=
  List.replicate 128 (JsNum.num 0)

theorem generateSimpleImageFeatures_length (buf : List (Fin 256)) :
    (generateSimpleImageFeatures buf).length = 129 := by
  simp [generateSimpleImageFeatures]

theorem generateSimpleImageFeatures_entries {buf : List (Fin 256)} (hbuf : buf ≠ []) :
    ∀ e ∈ generateSimpleImageFeatures buf, ∃ x : ℝ, e = JsNum.num x ∧ 0 ≤ x ∧ x ≤ 1 := by
  intro e he
  rcases List.mem_cons.1 he with rfl | he'
  · refine ⟨_, rfl, by positivity, ?_⟩
    have h : buf.length % 1000 < 1000 := Nat.mod_lt _ (by norm_num)
    have h' : ((buf.length % 1000 : ℕ) : ℝ) ≤ 999 := by
      exact_mod_cast Nat.le_of_lt_succ h
    rw [div_le_one (by norm_num : (0 : ℝ) < 1000)]
    linarith
  · obtain ⟨i, hi, hmap⟩ := List.mem_map.1 he'
    have hipos : 0 < buf.length := List.length_pos.2 hbuf
    have hirange : i < 128 := List.mem_range.1 hi
    have hidx : i * buf.length / 128 < buf.length := by
      rw [Nat.div_lt_iff_lt_mul (by norm_num : 0 < 128)]
      calc i * buf.length < 128 * buf.length :=
            Nat.mul_lt_mul_of_pos_right hirange hipos
        _ = buf.length * 128 := Nat.mul_comm _ _
    rw [List.get?_eq_get hidx] at hmap
    refine ⟨_, hmap.symm, by positivity, ?_⟩
    have hble : ((buf.get ⟨i * buf.length / 128, hidx⟩ : Fin 256) : ℕ) ≤ 255 :=
      Nat.le_of_lt_succ (Fin.is_lt _)
    rw [div_le_one (by norm_num : (0 : ℝ) < 255)]
    exact_mod_cast hble

theorem generateSimpleImageFeatures_nil_nan :
    (generateSimpleImageFeatures []).get? 1 = some JsNum.nan := rfl

/-- The outcome of each external effect inside `processImageForMatching`:
the image fetch, the global models-loaded flag, and the face-detection
run (which either throws or yields a list of face descriptors). -/
structure ImgEnv where
  fetched : Except String (List (Fin 256))
  modelsLoaded : Bool
  detections : Except String (List (List ℝ))

/-- A thrown JavaScript error, as seen by the caller. -/
inductive JsError where
  | referenceError (ident : String)
deriving DecidableEq

/-- Model of `processImageForMatching(imageUrl)` (lines 41–90).  The `catch` block
executes `generateSimpleImageFeatures(buffer)`, but `buffer` is declared
with `const` inside the `try` block and is therefore not in scope in the
`catch` block: evaluating it throws `ReferenceError: buffer is not
defined`, which propagates to the caller.  Any error raised inside the
`try` block (fetch failure or a throwing detection run) therefore
surfaces as that `ReferenceError`. -/
def processImageForMatching (env : ImgEnv) : Except JsError (List JsNum) :=
  match env.fetched with
  | .error _ => .error (.referenceError "buffer")
  | .ok buffer =>
    if env.modelsLoaded = false then .ok (generateSimpleImageFeatures buffer)
    else
      match env.detections with
      | .error _ => .error (.referenceError "buffer")
      | .ok dets =>
        if dets.isEmpty then .ok (generateSimpleImageFeatures buffer)
        else .ok ((dets.headD []).map JsNum.num)

/-! ## Data model — prisma schema

`ParentReport` and `FinderReport` rows (with their included `images`
relation), and `matched_cases` rows.  Report and image ids, image URLs
and user ids are modelled as natural numbers. -/

inductive CaseStatus where
  | ACTIVE | CLOSED | RESOLVED | CANCELLED
deriving DecidableEq

inductive MatchStatus where
  | PENDING | MATCHED | CLOSED | REJECTED
deriving DecidableEq

structure ReportImage where
  id : ℕ
  imageUrl : ℕ
  embeddingVector : List ℝ

/-- A parent or finder report with its images and owning user
(`parentId` resp. `finderId`). -/
structure Report where
  id : ℕ
  status : CaseStatus
  ownerId : ℕ
  images : List ReportImage

structure MatchedCase where
  id : ℕ
  parentCaseId : ℕ
  finderCaseId : ℕ
  matchConfidence : ℝ
  status : MatchStatus
  notificationSent : Bool

/-- A row of the `notifications` table, restricted to the fields the
matching pipeline writes: the recipient (`none` = admin/broadcast), the
match id and the confidence carried in `data`. -/
structure NotificationPayload where
  recipient : Option ℕ
  matchId : ℕ
  confidence : ℝ

/-- The relational store: the two report tables, the `matched_cases`
table, the `notifications` table, and the id sequence used by
`matched_cases` inserts. -/
structure Db where
  parentReports : List Report
  finderReports : List Report
  matchedCases : List MatchedCase
  notifications : List NotificationPayload
  nextMatchId : ℕ

/-- Model of `prisma.<table>.findUnique({ where: { id } })`. -/
def findReport (tbl : List Report) (rid : ℕ) : Option Report :=
  tbl.find? (fun r => r.id = rid)

/-- Model of `prisma.matchedCase.findFirst({ where: { parentCaseId, finderCaseId } })`. -/
def findPair (db : Db) (p f : ℕ) : Option MatchedCase :=
  db.matchedCases.find? (fun m => m.parentCaseId = p ∧ m.finderCaseId = f)

/-- Model of `prisma.matchedCase.create({ data: ... })`: append a fresh row. -/
def createMatchedCase (db : Db) (p f : ℕ) (conf : ℝ) (st : MatchStatus) :
    Db × MatchedCase :=
  let m : MatchedCase :=
    { id := db.nextMatchId, parentCaseId := p, finderCaseId := f,
      matchConfidence := conf, status := st, notificationSent := false }
  ({ db with matchedCases := db.matchedCases ++ [m],
             nextMatchId := db.nextMatchId + 1 }, m)

/-- Model of `prisma.matchedCase.update({ where: { id }, data })`. -/
def updateMatchedCase (db : Db) (mid : ℕ) (upd : MatchedCase → MatchedCase) : Db :=
  { db with matchedCases :=
      db.matchedCases.map (fun m => if m.id = mid then upd m else m) }

/-- Owner (`parentId`) of a parent report, as read back through the
`include` clause of a `matchedCase.create`/`findUnique`. -/
def parentOwner (db : Db) (rid : ℕ) : ℕ :=
  ((findReport db.parentReports rid).map Report.ownerId).getD 0

/-- Owner (`finderId`) of a finder report. -/
def finderOwner (db : Db) (rid : ℕ) : ℕ :=
  ((findReport db.finderReports rid).map Report.ownerId).getD 0

/-! ## Match resolver, vector path — `caseService.js`, `findMatches` -/

/-- Model of `reportType` argument of `findMatches` ('PARENT' or 'FINDER'). -/
inductive ReportRole where
  | PARENT | FINDER
deriving DecidableEq

/-- Delivery outcomes for `sendNotification`: `fails r = true` means the
dispatch to recipient `r` throws (the service rethrows every internal
error). -/
structure NotifyEnv where
  fails : Option ℕ → Bool

/-- Model of `sendNotification({...})` as used by the pipeline: on success the
notification row is stored; on failure the call throws. -/
def sendNotification (env : NotifyEnv) (db : Db) (p : NotificationPayload) :
    Except String Db :=
  if env.fails p.recipient then .error "notification failed"
  else .ok { db with notifications := db.notifications ++ [p] }

/-- Model of `SIMILARITY_THRESHOLD` (caseService.js line 90). -/
def SIMILARITY_THRESHOLD : ℝ := 0.7

/-- The nested image loops of `findMatches` (lines 93–116): running best
score, skipping any image whose `embeddingVector` is null/empty, updating
on strict improvement (`similarity > bestSimilarity`). -/
def bestSimilarity (src tgt : Report) : ℝ :=
  src.images.foldl
    (fun best si =>
      if si.embeddingVector = [] then best
      else
        tgt.images.foldl
          (fun b ti =>
            if ti.embeddingVector = [] then b
            else
              if b < calculateSimilarity si.embeddingVector ti.embeddingVector then
                calculateSimilarity si.embeddingVector ti.embeddingVector
              else b)
          best)
    0

/-- The acceptance test of `findMatches` (line 119):
`bestSimilarity >= SIMILARITY_THRESHOLD`. -/
def accepts (src tgt : Report) : Prop :=
  SIMILARITY_THRESHOLD ≤ bestSimilarity src tgt

instance (src tgt : Report) : Decidable (accepts src tgt) :=
  Real.decidableLE _ _

/-- Canonical `matchData` ordering (lines 120–130): the parent-role
report id is always stored as `parentCaseId` and the finder-role id as
`finderCaseId`, whichever side triggered the search. -/
def canonicalPair (rt : ReportRole) (reportId tid : ℕ) : ℕ × ℕ :=
  match rt with
  | .PARENT => (reportId, tid)
  | .FINDER => (tid, reportId)

/-- The lookup-then-insert block of `findMatches` (lines 132–159): if a
`MatchedCase` row for the pair exists nothing at all is written;
otherwise a new row is created with the computed confidence and status
`PENDING`. -/
def vectorUpsert (db : Db) (p f : ℕ) (conf : ℝ) : Db × Option MatchedCase :=
  match findPair db p f with
  | some _ => (db, none)
  | none =>
    let r := createMatchedCase db p f conf .PENDING
    (r.1, some r.2)

/-- The three notification sends of `findMatches` (lines 162–196): the
parent's owner, the finder's owner, then the admin broadcast, in order;
any failure propagates immediately (there is no surrounding catch). -/
def vectorNotify (env : NotifyEnv) (db : Db) (pOwner fOwner mid : ℕ) (conf : ℝ) :
    Except String Db :=
  match sendNotification env db ⟨some pOwner, mid, conf⟩ with
  | .error e => .error e
  | .ok db1 =>
    match sendNotification env db1 ⟨some fOwner, mid, conf⟩ with
    | .error e => .error e
    | .ok db2 => sendNotification env db2 ⟨none, mid, conf⟩

/-- The body of the per-target loop of `findMatches` (lines 93–199) for
one target report: threshold test, lookup-then-insert, then the three
notification sends.  Returns the new `MatchedCase` when one was created
(`matches.push(newMatch)`), and the propagated error when a notification
send threw. -/
def vectorStep (env : NotifyEnv) (rt : ReportRole) (reportId : ℕ) (src : Report)
    (db : Db) (t : Report) : Db × Except String (Option MatchedCase) :=
  if accepts src t then
    match vectorUpsert db (canonicalPair rt reportId t.id).1
        (canonicalPair rt reportId t.id).2 (bestSimilarity src t) with
    | (db1, none) => (db1, .ok none)
    | (db1, some m) =>
      match vectorNotify env db1 (parentOwner db1 (canonicalPair rt reportId t.id).1)
          (finderOwner db1 (canonicalPair rt reportId t.id).2) m.id m.matchConfidence with
      | .error e => (db1, .error e)
      | .ok db2 => (db2, .ok (some m))
  else (db, .ok none)

/-- The per-target loop of `findMatches`: each target in order; a thrown
error aborts the loop (and the whole call) with the database as already
mutated. -/
def vectorLoop (env : NotifyEnv) (rt : ReportRole) (reportId : ℕ) (src : Report) :
    List Report → Db → Db × Except String (List MatchedCase)
  | [], db => (db, .ok [])
  | t :: ts, db =>
    match vectorStep env rt reportId src db t with
    | (db1, .error e) => (db1, .error e)
    | (db1, .ok om) =>
      match vectorLoop env rt reportId src ts db1 with
      | (db2, .ok ms) => (db2, .ok (om.elim ms (· :: ms)))
      | (db2, .error e) => (db2, .error e)

/-- The source-report lookup of `findMatches`: `findUnique` on the
table named by `reportType`. -/
def vecSource (db : Db) (reportId : ℕ) : ReportRole → Option Report
  | .PARENT => findReport db.parentReports reportId
  | .FINDER => findReport db.finderReports reportId

/-- The candidate query of `findMatches`: all ACTIVE opposite-role
reports, excluding the source id. -/
def vecTargets (db : Db) (reportId : ℕ) : ReportRole → List Report
  | .PARENT => db.finderReports.filter
      (fun r => r.status = CaseStatus.ACTIVE ∧ r.id ≠ reportId)
  | .FINDER => db.parentReports.filter
      (fun r => r.status = CaseStatus.ACTIVE ∧ r.id ≠ reportId)

/-- Model of `findMatches(reportId, reportType)` (caseService.js lines 10–208).
Loads the source report (error if absent), loads the opposite-role
ACTIVE reports excluding the source id, and runs the per-target loop. -/
def findMatchesVec (env : NotifyEnv) (db : Db) (reportId : ℕ) (rt : ReportRole) :
    Db × Except String (List MatchedCase) :=
  match vecSource db reportId rt with
  | none =>
    (db, .error (match rt with
      | .PARENT => "Parent report not found"
      | .FINDER => "Finder report not found"))
  | some src => vectorLoop env rt reportId src (vecTargets db reportId rt) db

/-! ## Face-comparison oracle adapter — `faceMatchingService.js` -/

/-- Outcome of one oracle round trip for a pair of image URLs: either the
`{match, error}` body of a successful `/face_match` response, or a thrown
error (download failure, timeout, non-2xx response). -/
structure OracleEnv where
  oracle : ℕ → ℕ → Except String (Bool × Option String)
  notify : NotifyEnv

/-- Result shape of `compareTwoFaces`. -/
structure FaceCompareResult where
  success : Bool
  isMatch : Bool
  confidence : ℝ
  error : Option String

/-- Model of `compareTwoFaces(image1Url, image2Url, tolerance)` (faceMatchingService.js
lines 52–110): on a successful oracle call the boolean `match` is mapped to
the fixed confidence `match ? 95 : 30`; any failure along the way is caught
and returned as `{success: false, match: false, confidence: 0}`.  The
`tolerance` argument is accepted but never forwarded to the service. -/
def compareTwoFaces (env : OracleEnv) (u1 u2 : ℕ) (_tolerance : ℝ) :
    FaceCompareResult :=
  match env.oracle u1 u2 with
  | .ok (m, err) =>
    { success := true, isMatch := m, confidence := if m then 95 else 30, error := err }
  | .error e =>
    { success := false, isMatch := false, confidence := 0, error := some e }

/-- One entry of the `matches` array built by `compareMultipleFaces`. -/
structure MultiMatchEntry where
  index : ℕ
  isMatch : Bool
  confidence : ℝ

/-- Result shape of `compareMultipleFaces`. -/
structure MultiMatchResult where
  success : Bool
  matchList : List MultiMatchEntry
  matchesFound : ℕ

/-- Model of `compareMultipleFaces(sourceImageUrl, targetImageUrls, tolerance,
minConfidence)` (lines 120–177): one `compareTwoFaces` per target, an
entry records a match only when the oracle matched and the mapped
confidence clears `minConfidence`; the matching entries are sorted by
confidence, descending. -/
def compareMultipleFaces (env : OracleEnv) (srcUrl : ℕ) (targetUrls : List ℕ)
    (tol minConfidence : ℝ) : MultiMatchResult :=
  let all := targetUrls.enum.map (fun p =>
    let r := compareTwoFaces env srcUrl p.2 tol
    if r.success then
      { index := p.1, isMatch := r.isMatch && decide (minConfidence ≤ r.confidence),
        confidence := r.confidence }
    else
      { index := p.1, isMatch := false, confidence := 0 })
  let valid := all.filter (·.isMatch)
  let sorted := valid.mergeSort (fun a b => decide (b.confidence ≤ a.confidence))
  { success := true, matchList := sorted, matchesFound := sorted.length }

/-- Result shape of `compareReportImages` (the `bestMatch` object). -/
structure BestMatch where
  matched : Bool
  confidence : ℝ
  parentImageId : Option ℕ
  finderImageId : Option ℕ

/-- Model of `compareReportImages(parentImages, finderImages, minConfidence)`
(lines 199–250): for each parent image compare against all finder images,
keep the best confidence over all parent images (strict improvement). -/
def compareReportImages (env : OracleEnv) (parentImages finderImages : List ReportImage)
    (minConfidence : ℝ) : BestMatch :=
  parentImages.foldl
    (fun best pimg =>
      let result := compareMultipleFaces env pimg.imageUrl
        (finderImages.map (·.imageUrl)) 0.6 minConfidence
      match result.matchList with
      | [] => best
      | top :: _ =>
        if best.confidence < top.confidence then
          { matched := true, confidence := top.confidence,
            parentImageId := some pimg.id,
            finderImageId := (finderImages.get? top.index).map (·.id) }
        else best)
    { matched := false, confidence := 0, parentImageId := none, finderImageId := none }

/-! ## Match resolver, oracle path — `faceMatchController.js` -/

/-- The create-or-update block shared by the three controller accept
paths (e.g. `findMatchesForParentReport` lines 126–156): look up the
pair; if a row exists overwrite its confidence and set status `MATCHED`;
otherwise create a fresh row with status `MATCHED` and
`notificationSent: false`.  Returns the written row. -/
def upsertMatched (db : Db) (p f : ℕ) (conf : ℝ) : Db × MatchedCase :=
  match findPair db p f with
  | some ex =>
    (updateMatchedCase db ex.id
        (fun m => { m with matchConfidence := conf, status := .MATCHED }),
      { ex with matchConfidence := conf, status := .MATCHED })
  | none => createMatchedCase db p f conf .MATCHED

/-- The notification block of the controller paths (lines 158–193):
notify the parent's owner, then the finder's owner, then flip
`notificationSent`; the whole block is wrapped in try/catch, so a
failure keeps whatever happened so far and never propagates. -/
def ctrlNotifyBlock (env : OracleEnv) (db : Db) (pOwner fOwner mid : ℕ) (conf : ℝ) : Db :=
  match sendNotification env.notify db ⟨some pOwner, mid, conf⟩ with
  | .error _ => db
  | .ok db1 =>
    match sendNotification env.notify db1 ⟨some fOwner, mid, conf⟩ with
    | .error _ => db1
    | .ok db2 =>
      updateMatchedCase db2 mid (fun m => { m with notificationSent := true })

/-- Generic per-candidate loop of the controller paths: the candidate
step never throws (its notification block swallows failures). -/
def ctrlLoop {α : Type} (step : Db → Report → Db × Option α) :
    List Report → Db → Db × List α
  | [], db => (db, [])
  | t :: ts, db =>
    match step db t with
    | (db1, none) => ctrlLoop step ts db1
    | (db1, some a) =>
      let (db2, rest) := ctrlLoop step ts db1
      (db2, a :: rest)

/-- Per-finder body of `findMatchesForParentReport` (lines 115–206):
skip finders without images, compare via the oracle, upsert on match,
then notify (failures swallowed). -/
def ctrlParentStep (env : OracleEnv) (parentReportId : ℕ) (parent : Report)
    (minConfidence : ℝ) (db : Db) (finder : Report) : Db × Option ℕ :=
  if finder.images.isEmpty then (db, none)
  else
    let mr := compareReportImages env parent.images finder.images minConfidence
    if mr.matched then
      let u := upsertMatched db parentReportId finder.id mr.confidence
      (ctrlNotifyBlock env u.1 parent.ownerId finder.ownerId u.2.id mr.confidence, some u.2.id)
    else (db, none)

/-- Model of `findMatchesForParentReport` (faceMatchController.js lines 52–216). -/
def findMatchesForParentReport (env : OracleEnv) (db : Db) (parentReportId : ℕ)
    (minConfidence : ℝ) : Db × Except String (List ℕ) :=
  match findReport db.parentReports parentReportId with
  | none => (db, .error "Parent report not found")
  | some parent =>
    if parent.images.isEmpty then (db, .error "Parent report has no images to match")
    else
      let finders := db.finderReports.filter (fun r => r.status = CaseStatus.ACTIVE)
      let r := ctrlLoop (ctrlParentStep env parentReportId parent minConfidence) finders db
      (r.1, .ok r.2)

/-- Per-parent body of `findMatchesForFinderReport` (lines 284–370). -/
def ctrlFinderStep (env : OracleEnv) (finderReportId : ℕ) (finder : Report)
    (minConfidence : ℝ) (db : Db) (parent : Report) : Db × Option ℕ :=
  if parent.images.isEmpty then (db, none)
  else
    let mr := compareReportImages env parent.images finder.images minConfidence
    if mr.matched then
      let u := upsertMatched db parent.id finderReportId mr.confidence
      (ctrlNotifyBlock env u.1 parent.ownerId finder.ownerId u.2.id mr.confidence, some u.2.id)
    else (db, none)

/-- Model of `findMatchesForFinderReport` (faceMatchController.js lines 221–379). -/
def findMatchesForFinderReport (env : OracleEnv) (db : Db) (finderReportId : ℕ)
    (minConfidence : ℝ) : Db × Except String (List ℕ) :=
  match findReport db.finderReports finderReportId with
  | none => (db, .error "Finder report not found")
  | some finder =>
    if finder.images.isEmpty then (db, .error "Finder report has no images to match")
    else
      let parents := db.parentReports.filter (fun r => r.status = CaseStatus.ACTIVE)
      let r := ctrlLoop (ctrlFinderStep env finderReportId finder minConfidence) parents db
      (r.1, .ok r.2)

/-- Model of `compareSpecificReports` (faceMatchController.js lines 384–482): a
single pair comparison with the same upsert block and no notifications. -/
def compareSpecificReports (env : OracleEnv) (db : Db) (parentReportId finderReportId : ℕ)
    (minConfidence : ℝ) : Db × Except String (Option ℕ) :=
  match findReport db.parentReports parentReportId,
      findReport db.finderReports finderReportId with
  | some parent, some finder =>
    if parent.images.isEmpty ∨ finder.images.isEmpty then
      (db, .error "Both reports must have at least one image")
    else
      let mr := compareReportImages env parent.images finder.images minConfidence
      if mr.matched then
        let u := upsertMatched db parentReportId finderReportId mr.confidence
        (u.1, .ok (some u.2.id))
      else (db, .ok none)
  | _, _ => (db, .error "One or both reports not found")

/-! ## Pair-level invariants of the `matched_cases` table -/

/-- The logical pair a `matched_cases` row stands for. -/
def pairKey (m : MatchedCase) : ℕ × ℕ := (m.parentCaseId, m.finderCaseId)

/-- The pairs currently stored. -/
def dbKeys (db : Db) : List (ℕ × ℕ) := db.matchedCases.map pairKey

/-- At most one row per logical (parent report, finder report) pair. -/
def PairUnique (l : List MatchedCase) : Prop := (l.map pairKey).Nodup

/-- Number of rows stored for one logical pair. -/
def countPair (db : Db) (k : ℕ × ℕ) : ℕ :=
  @List.count _ instBEqOfDecidableEq k (dbKeys db)

theorem findPair_eq_none_iff (db : Db) (p f : ℕ) :
    findPair db p f = none ↔ (p, f) ∉ dbKeys db := by
  unfold findPair dbKeys
  rw [List.find?_eq_none]
  constructor
  · rintro h hmem
    obtain ⟨m, hm, hk⟩ := List.mem_map.1 hmem
    have := h m hm
    simp only [decide_eq_true_eq] at this
    exact this ⟨congrArg Prod.fst hk, congrArg Prod.snd hk⟩
  · intro h m hm
    simp only [decide_eq_true_eq]
    rintro ⟨h1, h2⟩
    exact h (List.mem_map.2 ⟨m, hm, by simp [pairKey, h1, h2]⟩)

theorem findPair_ne_none_of_stored {db : Db} {p f : ℕ} (h : (p, f) ∈ dbKeys db) :
    findPair db p f ≠ none := fun hn => (findPair_eq_none_iff db p f).1 hn h

theorem pairUnique_append {l : List MatchedCase} {m : MatchedCase}
    (h : PairUnique l) (hk : pairKey m ∉ l.map pairKey) : PairUnique (l ++ [m]) := by
  unfold PairUnique at *
  rw [List.map_append, List.nodup_append]
  refine ⟨h, List.nodup_singleton _, ?_⟩
  intro a ha hb
  simp only [List.map_cons, List.map_nil, List.mem_singleton] at hb
  subst hb
  exact hk ha

theorem pairUnique_update {db : Db} {mid : ℕ} {upd : MatchedCase → MatchedCase}
    (hupd : ∀ m, pairKey (upd m) = pairKey m) :
    (updateMatchedCase db mid upd).matchedCases.map pairKey = db.matchedCases.map pairKey := by
  unfold updateMatchedCase
  simp only [List.map_map]
  refine List.map_congr_left (fun m _ => ?_)
  by_cases h : m.id = mid <;> simp [h, hupd]

/-! ### Effect of one vector-path target step -/

theorem sendNotification_ok {env : NotifyEnv} {db db' : Db} {p : NotificationPayload}
    (h : sendNotification env db p = .ok db') :
    db' = { db with notifications := db.notifications ++ [p] } := by
  unfold sendNotification at h
  split at h
  · exact absurd h (by simp)
  · simpa using h.symm

theorem vectorNotify_ok {env : NotifyEnv} {db db' : Db} {a b mid : ℕ} {c : ℝ}
    (h : vectorNotify env db a b mid c = .ok db') :
    db'.matchedCases = db.matchedCases ∧ db'.parentReports = db.parentReports ∧
      db'.finderReports = db.finderReports ∧ db'.nextMatchId = db.nextMatchId := by
  unfold vectorNotify at h
  split at h
  · exact absurd h (by simp)
  · rename_i db1 h1
    split at h
    · exact absurd h (by simp)
    · rename_i db2 h2
      have e1 := sendNotification_ok h1
      have e2 := sendNotification_ok h2
      have e3 := sendNotification_ok h
      subst e1; subst e2; subst e3
      exact ⟨rfl, rfl, rfl, rfl⟩

theorem vectorNotify_clean {env : NotifyEnv} (henv : ∀ r, env.fails r = false)
    (db : Db) (a b mid : ℕ) (c : ℝ) :
    ∃ db', vectorNotify env db a b mid c = .ok db' := by
  unfold vectorNotify sendNotification
  simp [henv]

/-- The row inserted by an accepted fresh pair. -/
def freshRow (db : Db) (k : ℕ × ℕ) (conf : ℝ) : MatchedCase :=
  { id := db.nextMatchId, parentCaseId := k.1, finderCaseId := k.2,
    matchConfidence := conf, status := .PENDING, notificationSent := false }

theorem vectorStep_effect (env : NotifyEnv) (rt : ReportRole) (rid : ℕ) (src : Report)
    (db : Db) (t : Report) :
    (vectorStep env rt rid src db t).1.parentReports = db.parentReports ∧
    (vectorStep env rt rid src db t).1.finderReports = db.finderReports ∧
    ((vectorStep env rt rid src db t).1.matchedCases = db.matchedCases ∨
      (accepts src t ∧
        findPair db (canonicalPair rt rid t.id).1 (canonicalPair rt rid t.id).2 = none ∧
        (vectorStep env rt rid src db t).1.matchedCases =
          db.matchedCases ++ [freshRow db (canonicalPair rt rid t.id) (bestSimilarity src t)])) := by
  unfold vectorStep
  by_cases hacc : accepts src t
  · simp only [if_pos hacc]
    cases hfp : findPair db (canonicalPair rt rid t.id).1 (canonicalPair rt rid t.id).2 with
    | some ex =>
      simp only [vectorUpsert, hfp]
      exact ⟨by trivial, by trivial, Or.inl (by trivial)⟩
    | none =>
      simp only [vectorUpsert, hfp]
      cases hvn : vectorNotify env (createMatchedCase db (canonicalPair rt rid t.id).1
          (canonicalPair rt rid t.id).2 (bestSimilarity src t) .PENDING).1
          (parentOwner _ (canonicalPair rt rid t.id).1)
          (finderOwner _ (canonicalPair rt rid t.id).2)
          (createMatchedCase db (canonicalPair rt rid t.id).1 (canonicalPair rt rid t.id).2
            (bestSimilarity src t) .PENDING).2.id
          (createMatchedCase db (canonicalPair rt rid t.id).1 (canonicalPair rt rid t.id).2
            (bestSimilarity src t) .PENDING).2.matchConfidence with
      | error e =>
        simp only [hvn]
        refine ⟨by simp [createMatchedCase], by simp [createMatchedCase],
          Or.inr ⟨hacc, by first | exact hfp | trivial, ?_⟩⟩
        simp [createMatchedCase, freshRow]
      | ok db2 =>
        simp only [hvn]
        obtain ⟨hm, hp, hf, _⟩ := vectorNotify_ok hvn
        refine ⟨by simp [hp, createMatchedCase], by simp [hf, createMatchedCase],
          Or.inr ⟨hacc, by first | exact hfp | trivial, ?_⟩⟩
        rw [hm]
        simp [createMatchedCase, freshRow]
  · simp only [if_neg hacc]
    exact ⟨by trivial, by trivial, Or.inl (by trivial)⟩

theorem pairKey_freshRow (db : Db) (k : ℕ × ℕ) (conf : ℝ) :
    pairKey (freshRow db k conf) = k := rfl

theorem findPair_some_stored {db : Db} {p f : ℕ} {m : MatchedCase}
    (h : findPair db p f = some m) : (p, f) ∈ dbKeys db := by
  unfold findPair at h
  have hmem : m ∈ db.matchedCases := List.mem_of_find?_eq_some h
  have hpred := List.find?_some h
  simp only [decide_eq_true_eq] at hpred
  exact List.mem_map.2 ⟨m, hmem, by simp [pairKey, hpred.1, hpred.2]⟩

/-! ### Loop-level lemmas for the vector path -/

theorem vectorStep_pairUnique (env : NotifyEnv) (rt : ReportRole) (rid : ℕ) (src : Report)
    (db : Db) (t : Report) (h : PairUnique db.matchedCases) :
    PairUnique (vectorStep env rt rid src db t).1.matchedCases := by
  rcases (vectorStep_effect env rt rid src db t).2.2 with hmc | ⟨_, hfp, hmc⟩
  · rw [hmc]; exact h
  · rw [hmc]
    exact pairUnique_append h (by
      rw [pairKey_freshRow]
      exact (findPair_eq_none_iff db _ _).1 hfp)

theorem vectorStep_keys (env : NotifyEnv) (rt : ReportRole) (rid : ℕ) (src : Report)
    (db : Db) (t : Report) :
    ∀ k ∈ dbKeys (vectorStep env rt rid src db t).1,
      k ∈ dbKeys db ∨ k = canonicalPair rt rid t.id := by
  intro k hk
  rcases (vectorStep_effect env rt rid src db t).2.2 with hmc | ⟨_, _, hmc⟩
  · rw [dbKeys, hmc] at hk; exact Or.inl hk
  · rw [dbKeys, hmc, List.map_append] at hk
    rcases List.mem_append.1 hk with h | h
    · exact Or.inl h
    · simp only [List.map_cons, List.map_nil, List.mem_singleton, pairKey_freshRow] at h
      exact Or.inr h

theorem vectorStep_stored_mono (env : NotifyEnv) (rt : ReportRole) (rid : ℕ) (src : Report)
    (db : Db) (t : Report) {k : ℕ × ℕ} (hk : k ∈ dbKeys db) :
    k ∈ dbKeys (vectorStep env rt rid src db t).1 := by
  rcases (vectorStep_effect env rt rid src db t).2.2 with hmc | ⟨_, _, hmc⟩ <;>
    · rw [dbKeys, hmc]
      first
      | exact hk
      | exact (by rw [List.map_append]; exact List.mem_append_left _ hk)

theorem vectorStep_stores (env : NotifyEnv) (rt : ReportRole) (rid : ℕ) (src : Report)
    (db : Db) (t : Report) (hacc : accepts src t) :
    canonicalPair rt rid t.id ∈ dbKeys (vectorStep env rt rid src db t).1 := by
  rcases hfp : findPair db (canonicalPair rt rid t.id).1 (canonicalPair rt rid t.id).2 with
    _ | ex
  · rcases (vectorStep_effect env rt rid src db t).2.2 with hmc | ⟨_, _, hmc⟩
    · -- with an accepted fresh pair the step appends; but if the effect lemma
      -- reports no change we can still read the stored key off the lookup
      have : vectorStep env rt rid src db t =
          (vectorStep env rt rid src db t) := rfl
      -- reconstruct: the unchanged case contradicts nothing, so argue directly
      -- from the step definition
      unfold vectorStep at hmc ⊢
      simp only [if_pos hacc, vectorUpsert, hfp] at hmc ⊢
      cases hvn : vectorNotify env (createMatchedCase db (canonicalPair rt rid t.id).1
          (canonicalPair rt rid t.id).2 (bestSimilarity src t) .PENDING).1
          (parentOwner _ (canonicalPair rt rid t.id).1)
          (finderOwner _ (canonicalPair rt rid t.id).2)
          (createMatchedCase db (canonicalPair rt rid t.id).1 (canonicalPair rt rid t.id).2
            (bestSimilarity src t) .PENDING).2.id
          (createMatchedCase db (canonicalPair rt rid t.id).1 (canonicalPair rt rid t.id).2
            (bestSimilarity src t) .PENDING).2.matchConfidence with
      | error e =>
        simp only [hvn] at hmc ⊢
        simp only [dbKeys, createMatchedCase, List.map_append]
        exact List.mem_append_right _ (by simp [pairKey])
      | ok db2 =>
        simp only [hvn] at hmc ⊢
        obtain ⟨hm, _, _, _⟩ := vectorNotify_ok hvn
        simp only [dbKeys, hm, createMatchedCase, List.map_append]
        exact List.mem_append_right _ (by simp [pairKey])
    · rw [dbKeys, hmc, List.map_append]
      exact List.mem_append_right _ (by simp [pairKey_freshRow])
  · exact vectorStep_stored_mono env rt rid src db t (findPair_some_stored hfp)

theorem vectorStep_noop (env : NotifyEnv) (rt : ReportRole) (rid : ℕ) (src : Report)
    (db : Db) (t : Report)
    (hstored : accepts src t → canonicalPair rt rid t.id ∈ dbKeys db) :
    vectorStep env rt rid src db t = (db, .ok none) := by
  unfold vectorStep
  by_cases hacc : accepts src t
  · simp only [if_pos hacc]
    rcases hfp : findPair db (canonicalPair rt rid t.id).1 (canonicalPair rt rid t.id).2 with
      _ | ex
    · exact absurd hfp (findPair_ne_none_of_stored (hstored hacc))
    · simp [vectorUpsert, hfp]
  · simp [if_neg hacc]

theorem vectorStep_clean (env : NotifyEnv) (henv : ∀ r, env.fails r = false)
    (rt : ReportRole) (rid : ℕ) (src : Report) (db : Db) (t : Report) :
    ∃ db1 om, vectorStep env rt rid src db t = (db1, .ok om) := by
  unfold vectorStep
  by_cases hacc : accepts src t
  · simp only [if_pos hacc]
    rcases hfp : findPair db (canonicalPair rt rid t.id).1 (canonicalPair rt rid t.id).2 with
      _ | ex
    · simp only [vectorUpsert, hfp]
      obtain ⟨db', hdb'⟩ := vectorNotify_clean henv
        (createMatchedCase db (canonicalPair rt rid t.id).1 (canonicalPair rt rid t.id).2
          (bestSimilarity src t) .PENDING).1
        (parentOwner _ (canonicalPair rt rid t.id).1)
        (finderOwner _ (canonicalPair rt rid t.id).2)
        (createMatchedCase db (canonicalPair rt rid t.id).1 (canonicalPair rt rid t.id).2
          (bestSimilarity src t) .PENDING).2.id
        (createMatchedCase db (canonicalPair rt rid t.id).1 (canonicalPair rt rid t.id).2
          (bestSimilarity src t) .PENDING).2.matchConfidence
      rw [hdb']
      exact ⟨db', _, rfl⟩
    · simp [vectorUpsert, hfp]
  · simp [if_neg hacc]

theorem vectorLoop_effect (env : NotifyEnv) (rt : ReportRole) (rid : ℕ) (src : Report) :
    ∀ (ts : List Report) (db : Db),
      (vectorLoop env rt rid src ts db).1.parentReports = db.parentReports ∧
      (vectorLoop env rt rid src ts db).1.finderReports = db.finderReports ∧
      ∃ tail, (vectorLoop env rt rid src ts db).1.matchedCases = db.matchedCases ++ tail := by
  intro ts
  induction ts with
  | nil =>
    intro db
    exact ⟨rfl, rfl, [], by simp [vectorLoop]⟩
  | cons t ts ih =>
    intro db
    have he := vectorStep_effect env rt rid src db t
    have hmc1 : ∃ tl, (vectorStep env rt rid src db t).1.matchedCases =
        db.matchedCases ++ tl := by
      rcases he.2.2 with h | ⟨_, _, h⟩
      · exact ⟨[], by simp [h]⟩
      · exact ⟨_, h⟩
    rcases hstep : vectorStep env rt rid src db t with ⟨db1, r⟩
    rw [hstep] at he hmc1
    obtain ⟨tl1, htl1⟩ := hmc1
    cases r with
    | error e =>
      simp only [vectorLoop, hstep]
      exact ⟨he.1, he.2.1, tl1, htl1⟩
    | ok om =>
      have ih1 := ih db1
      rcases hrec : vectorLoop env rt rid src ts db1 with ⟨db2, r2⟩
      rw [hrec] at ih1
      obtain ⟨hp2, hf2, tl2, htl2⟩ := ih1
      cases r2 with
      | error e =>
        simp only [vectorLoop, hstep, hrec]
        exact ⟨hp2.trans he.1, hf2.trans he.2.1, tl1 ++ tl2, by
          rw [htl2, htl1, List.append_assoc]⟩
      | ok ms =>
        simp only [vectorLoop, hstep, hrec]
        exact ⟨hp2.trans he.1, hf2.trans he.2.1, tl1 ++ tl2, by
          rw [htl2, htl1, List.append_assoc]⟩

theorem vectorLoop_pairUnique (env : NotifyEnv) (rt : ReportRole) (rid : ℕ) (src : Report) :
    ∀ (ts : List Report) (db : Db), PairUnique db.matchedCases →
      PairUnique (vectorLoop env rt rid src ts db).1.matchedCases := by
  intro ts
  induction ts with
  | nil => intro db h; simpa [vectorLoop] using h
  | cons t ts ih =>
    intro db h
    have h1 := vectorStep_pairUnique env rt rid src db t h
    rcases hstep : vectorStep env rt rid src db t with ⟨db1, r⟩
    rw [hstep] at h1
    cases r with
    | error e => simpa [vectorLoop, hstep] using h1
    | ok om =>
      have h2 := ih db1 h1
      rcases hrec : vectorLoop env rt rid src ts db1 with ⟨db2, r2⟩
      rw [hrec] at h2
      cases r2 <;> simpa [vectorLoop, hstep, hrec] using h2

theorem vectorLoop_keys (env : NotifyEnv) (rt : ReportRole) (rid : ℕ) (src : Report) :
    ∀ (ts : List Report) (db : Db) (k : ℕ × ℕ),
      k ∈ dbKeys (vectorLoop env rt rid src ts db).1 →
      k ∈ dbKeys db ∨ ∃ t ∈ ts, k = canonicalPair rt rid t.id := by
  intro ts
  induction ts with
  | nil =>
    intro db k hk
    exact Or.inl (by simpa [vectorLoop, dbKeys] using hk)
  | cons t ts ih =>
    intro db k hk
    have hstepk := vectorStep_keys env rt rid src db t
    rcases hstep : vectorStep env rt rid src db t with ⟨db1, r⟩
    rw [hstep] at hstepk
    have hfrom1 : k ∈ dbKeys db1 → k ∈ dbKeys db ∨ ∃ u ∈ t :: ts, k = canonicalPair rt rid u.id := by
      intro h1
      rcases hstepk k h1 with h | h
      · exact Or.inl h
      · exact Or.inr ⟨t, List.mem_cons_self _ _, h⟩
    cases r with
    | error e =>
      rw [vectorLoop, hstep] at hk
      exact hfrom1 hk
    | ok om =>
      rcases hrec : vectorLoop env rt rid src ts db1 with ⟨db2, r2⟩
      have hrk := ih db1 k
      rw [hrec] at hrk
      have hk2 : k ∈ dbKeys db2 := by
        cases r2 <;> simpa [vectorLoop, hstep, hrec] using hk
      rcases hrk hk2 with h | ⟨u, hu, hku⟩
      · exact hfrom1 h
      · exact Or.inr ⟨u, List.mem_cons_of_mem _ hu, hku⟩

theorem vectorLoop_stored_mono (env : NotifyEnv) (rt : ReportRole) (rid : ℕ) (src : Report)
    (ts : List Report) (db : Db) {k : ℕ × ℕ} (hk : k ∈ dbKeys db) :
    k ∈ dbKeys (vectorLoop env rt rid src ts db).1 := by
  obtain ⟨-, -, tail, htail⟩ := vectorLoop_effect env rt rid src ts db
  rw [dbKeys, htail, List.map_append]
  exact List.mem_append_left _ hk

theorem vectorLoop_noop (env : NotifyEnv) (rt : ReportRole) (rid : ℕ) (src : Report) :
    ∀ (ts : List Report) (db : Db),
      (∀ t ∈ ts, accepts src t → canonicalPair rt rid t.id ∈ dbKeys db) →
      vectorLoop env rt rid src ts db = (db, .ok []) := by
  intro ts
  induction ts with
  | nil => intro db _; simp [vectorLoop]
  | cons t ts ih =>
    intro db h
    have hstep := vectorStep_noop env rt rid src db t (h t (List.mem_cons_self _ _))
    have hih := ih db (fun u hu => h u (List.mem_cons_of_mem _ hu))
    simp [vectorLoop, hstep, hih]

theorem vectorLoop_stores_accepted (env : NotifyEnv) (henv : ∀ r, env.fails r = false)
    (rt : ReportRole) (rid : ℕ) (src : Report) :
    ∀ (ts : List Report) (db : Db) (t : Report), t ∈ ts → accepts src t →
      canonicalPair rt rid t.id ∈ dbKeys (vectorLoop env rt rid src ts db).1 := by
  intro ts
  induction ts with
  | nil => intro db t ht; exact absurd ht (List.not_mem_nil _)
  | cons u ts ih =>
    intro db t ht hacc
    obtain ⟨db1, om, hstep⟩ := vectorStep_clean env henv rt rid src db u
    rcases List.mem_cons.1 ht with rfl | hmem
    · have hst := vectorStep_stores env rt rid src db t hacc
      rw [hstep] at hst
      rcases hrec : vectorLoop env rt rid src ts db1 with ⟨db2, r2⟩
      have := vectorLoop_stored_mono env rt rid src ts db1 hst
      rw [hrec] at this
      cases r2 <;> simpa [vectorLoop, hstep, hrec] using this
    · have := ih db1 t hmem hacc
      rcases hrec : vectorLoop env rt rid src ts db1 with ⟨db2, r2⟩
      rw [hrec] at this
      cases r2 <;> simpa [vectorLoop, hstep, hrec] using this

theorem vectorLoop_clean_ok (env : NotifyEnv) (henv : ∀ r, env.fails r = false)
    (rt : ReportRole) (rid : ℕ) (src : Report) :
    ∀ (ts : List Report) (db : Db), ∃ ms,
      (vectorLoop env rt rid src ts db).2 = .ok ms := by
  intro ts
  induction ts with
  | nil => intro db; exact ⟨[], by simp [vectorLoop]⟩
  | cons t ts ih =>
    intro db
    obtain ⟨db1, om, hstep⟩ := vectorStep_clean env henv rt rid src db t
    obtain ⟨ms, hms⟩ := ih db1
    rcases hrec : vectorLoop env rt rid src ts db1 with ⟨db2, r2⟩
    rw [hrec] at hms
    cases r2 with
    | error e => exact absurd hms (by simp)
    | ok ms2 =>
      exact ⟨om.elim ms2 (· :: ms2), by simp [vectorLoop, hstep, hrec]⟩

/-! ### `findMatches`-level lemmas for the vector path -/

theorem findReport_some {tbl : List Report} {rid : ℕ} {r : Report}
    (h : findReport tbl rid = some r) : r ∈ tbl ∧ r.id = rid := by
  unfold findReport at h
  refine ⟨List.mem_of_find?_eq_some h, ?_⟩
  have := List.find?_some h
  simpa using this

/-- A stored pair is canonical for `db` when its first component is a
parent-report id and its second a finder-report id. -/
def canonicalKeyOK (db : Db) (k : ℕ × ℕ) : Prop :=
  k.1 ∈ db.parentReports.map Report.id ∧ k.2 ∈ db.finderReports.map Report.id

theorem canonicalPair_keyOK {db : Db} {rid : ℕ} {t : Report} {rt : ReportRole}
    (hsrc : (vecSource db rid rt).isSome) (ht : t ∈ vecTargets db rid rt) :
    canonicalKeyOK db (canonicalPair rt rid t.id) := by
  cases rt with
  | PARENT =>
    rcases hs : findReport db.parentReports rid with _ | src
    · rw [vecSource, hs] at hsrc; simp at hsrc
    · obtain ⟨hmem, hid⟩ := findReport_some hs
      have ht' : t ∈ db.finderReports := List.mem_of_mem_filter ht
      exact ⟨List.mem_map.2 ⟨src, hmem, hid⟩, List.mem_map.2 ⟨t, ht', rfl⟩⟩
  | FINDER =>
    rcases hs : findReport db.finderReports rid with _ | src
    · rw [vecSource, hs] at hsrc; simp at hsrc
    · obtain ⟨hmem, hid⟩ := findReport_some hs
      have ht' : t ∈ db.parentReports := List.mem_of_mem_filter ht
      exact ⟨List.mem_map.2 ⟨t, ht', rfl⟩, List.mem_map.2 ⟨src, hmem, hid⟩⟩

theorem findMatchesVec_invariants (env : NotifyEnv) (db : Db) (rid : ℕ) (rt : ReportRole) :
    (findMatchesVec env db rid rt).1.parentReports = db.parentReports ∧
    (findMatchesVec env db rid rt).1.finderReports = db.finderReports ∧
    (∃ tail, (findMatchesVec env db rid rt).1.matchedCases = db.matchedCases ++ tail) ∧
    (PairUnique db.matchedCases → PairUnique (findMatchesVec env db rid rt).1.matchedCases) ∧
    (∀ k ∈ dbKeys (findMatchesVec env db rid rt).1, k ∈ dbKeys db ∨ canonicalKeyOK db k) := by
  rcases hsrc : vecSource db rid rt with _ | src
  · simp only [findMatchesVec, hsrc]
    exact ⟨by trivial, by trivial, ⟨[], by simp⟩, fun h => h, fun k hk => Or.inl hk⟩
  · simp only [findMatchesVec, hsrc]
    obtain ⟨hp, hf, tail, htail⟩ := vectorLoop_effect env rt rid src (vecTargets db rid rt) db
    refine ⟨hp, hf, ⟨tail, htail⟩,
      vectorLoop_pairUnique env rt rid src (vecTargets db rid rt) db, ?_⟩
    intro k hk
    rcases vectorLoop_keys env rt rid src (vecTargets db rid rt) db k hk with h | ⟨t, ht, hkt⟩
    · exact Or.inl h
    · exact Or.inr (hkt ▸ canonicalPair_keyOK (by rw [hsrc]; rfl) ht)

theorem findMatchesVec_idempotent (env : NotifyEnv) (henv : ∀ r, env.fails r = false)
    (db : Db) (rid : ℕ) (rt : ReportRole) :
    (findMatchesVec env (findMatchesVec env db rid rt).1 rid rt).1 =
        (findMatchesVec env db rid rt).1 ∧
    (findMatchesVec env (findMatchesVec env db rid rt).1 rid rt).2 =
        (findMatchesVec env db rid rt).2.map (fun _ => ([] : List MatchedCase)) := by
  rcases hsrc : vecSource db rid rt with _ | src
  · simp only [findMatchesVec, hsrc]
    exact ⟨by trivial, by rfl⟩
  · simp only [findMatchesVec, hsrc]
    have hp := (vectorLoop_effect env rt rid src (vecTargets db rid rt) db).1
    have hf := (vectorLoop_effect env rt rid src (vecTargets db rid rt) db).2.1
    set db1 := (vectorLoop env rt rid src (vecTargets db rid rt) db).1 with hdb1
    have hsrc1 : vecSource db1 rid rt = some src := by
      cases rt <;> simp only [vecSource] at hsrc ⊢ <;>
        first
        | rw [findReport, hp, ← findReport, hsrc]
        | rw [findReport, hf, ← findReport, hsrc]
    have htgt1 : vecTargets db1 rid rt = vecTargets db rid rt := by
      cases rt <;> simp only [vecTargets, hp, hf]
    have hstored : ∀ t ∈ vecTargets db1 rid rt, accepts src t →
        canonicalPair rt rid t.id ∈ dbKeys db1 := by
      intro t ht hacc
      rw [htgt1] at ht
      exact vectorLoop_stores_accepted env henv rt rid src (vecTargets db rid rt) db t ht hacc
    have hnoop := vectorLoop_noop env rt rid src (vecTargets db1 rid rt) db1 hstored
    rw [htgt1] at hnoop
    simp only [findMatchesVec, hsrc1, htgt1, hnoop]
    refine ⟨by trivial, ?_⟩
    rcases hr : vectorLoop env rt rid src (vecTargets db rid rt) db with ⟨dbx, rx⟩
    cases rx with
    | error e =>
      -- a clean environment cannot produce an error
      obtain ⟨ms, hms⟩ := vectorLoop_clean_ok env henv rt rid src (vecTargets db rid rt) db
      rw [hr] at hms
      exact absurd hms (by simp)
    | ok ms => rfl

theorem pairUnique_iff_keys (db : Db) : PairUnique db.matchedCases ↔ (dbKeys db).Nodup :=
  Iff.rfl

theorem findMatchesVec_count_one (env : NotifyEnv) (henv : ∀ r, env.fails r = false)
    (db : Db) (rid : ℕ) (rt : ReportRole) (hu : PairUnique db.matchedCases)
    {src : Report} (hsrc : vecSource db rid rt = some src)
    {t : Report} (ht : t ∈ vecTargets db rid rt) (hacc : accepts src t) :
    countPair (findMatchesVec env db rid rt).1 (canonicalPair rt rid t.id) = 1 := by
  have hstored := vectorLoop_stores_accepted env henv rt rid src (vecTargets db rid rt)
    db t ht hacc
  have hUnique := vectorLoop_pairUnique env rt rid src (vecTargets db rid rt) db hu
  simp only [findMatchesVec, hsrc]
  unfold countPair dbKeys
  exact List.count_eq_one_of_mem hUnique hstored

/-! ### Invariant lemmas for the oracle (controller) path -/

theorem upsertMatched_effect (db : Db) (p f : ℕ) (conf : ℝ) :
    (upsertMatched db p f conf).1.parentReports = db.parentReports ∧
    (upsertMatched db p f conf).1.finderReports = db.finderReports ∧
    (dbKeys (upsertMatched db p f conf).1 = dbKeys db ∨
      (findPair db p f = none ∧
        dbKeys (upsertMatched db p f conf).1 = dbKeys db ++ [(p, f)])) := by
  unfold upsertMatched
  rcases hfp : findPair db p f with _ | ex
  · simp only [hfp]
    refine ⟨by simp [createMatchedCase], by simp [createMatchedCase],
      Or.inr ⟨by trivial, ?_⟩⟩
    simp [dbKeys, createMatchedCase, pairKey]
  · simp only [hfp]
    refine ⟨by trivial, by trivial, Or.inl ?_⟩
    exact pairUnique_update (fun m => rfl)

theorem sendNotification_cases (env : NotifyEnv) (db : Db) (p : NotificationPayload) :
    sendNotification env db p = .error "notification failed" ∨
    sendNotification env db p = .ok { db with notifications := db.notifications ++ [p] } := by
  unfold sendNotification
  by_cases h : env.fails p.recipient = true <;> simp [h]

theorem ctrlNotifyBlock_effect (env : OracleEnv) (db : Db) (a b mid : ℕ) (c : ℝ) :
    (ctrlNotifyBlock env db a b mid c).parentReports = db.parentReports ∧
    (ctrlNotifyBlock env db a b mid c).finderReports = db.finderReports ∧
    dbKeys (ctrlNotifyBlock env db a b mid c) = dbKeys db := by
  rcases sendNotification_cases env.notify db ⟨some a, mid, c⟩ with h1 | h1
  · simp [ctrlNotifyBlock, h1]
  · rcases sendNotification_cases env.notify
        { db with notifications := db.notifications ++ [⟨some a, mid, c⟩] }
        ⟨some b, mid, c⟩ with h2 | h2
    · simp [ctrlNotifyBlock, h1, h2, dbKeys]
    · simp only [ctrlNotifyBlock, h1, h2]
      exact ⟨by simp [updateMatchedCase], by simp [updateMatchedCase],
        pairUnique_update (fun m => rfl)⟩

theorem ctrlParentStep_effect (env : OracleEnv) (pid : ℕ) (parent : Report)
    (mc : ℝ) (db : Db) (finder : Report) :
    (ctrlParentStep env pid parent mc db finder).1.parentReports = db.parentReports ∧
    (ctrlParentStep env pid parent mc db finder).1.finderReports = db.finderReports ∧
    (dbKeys (ctrlParentStep env pid parent mc db finder).1 = dbKeys db ∨
      ((pid, finder.id) ∉ dbKeys db ∧
        dbKeys (ctrlParentStep env pid parent mc db finder).1 =
          dbKeys db ++ [(pid, finder.id)])) := by
  unfold ctrlParentStep
  by_cases hempty : finder.images.isEmpty
  · simp [hempty]
  · simp only [hempty, Bool.false_eq_true, if_false]
    by_cases hm : (compareReportImages env parent.images finder.images mc).matched
    · simp only [hm, if_true]
      obtain ⟨hup, huf, hukeys⟩ := upsertMatched_effect db pid finder.id
        (compareReportImages env parent.images finder.images mc).confidence
      obtain ⟨hnp, hnf, hnk⟩ := ctrlNotifyBlock_effect env
        (upsertMatched db pid finder.id
          (compareReportImages env parent.images finder.images mc).confidence).1
        parent.ownerId finder.ownerId
        (upsertMatched db pid finder.id
          (compareReportImages env parent.images finder.images mc).confidence).2.id
        (compareReportImages env parent.images finder.images mc).confidence
      refine ⟨hnp.trans hup, hnf.trans huf, ?_⟩
      rcases hukeys with h | ⟨hfp, h⟩
      · exact Or.inl (hnk.trans h)
      · exact Or.inr ⟨(findPair_eq_none_iff db _ _).1 hfp, hnk.trans h⟩
    · simp [hm]

theorem ctrlFinderStep_effect (env : OracleEnv) (fid : ℕ) (finder : Report)
    (mc : ℝ) (db : Db) (parent : Report) :
    (ctrlFinderStep env fid finder mc db parent).1.parentReports = db.parentReports ∧
    (ctrlFinderStep env fid finder mc db parent).1.finderReports = db.finderReports ∧
    (dbKeys (ctrlFinderStep env fid finder mc db parent).1 = dbKeys db ∨
      ((parent.id, fid) ∉ dbKeys db ∧
        dbKeys (ctrlFinderStep env fid finder mc db parent).1 =
          dbKeys db ++ [(parent.id, fid)])) := by
  unfold ctrlFinderStep
  by_cases hempty : parent.images.isEmpty
  · simp [hempty]
  · simp only [hempty, Bool.false_eq_true, if_false]
    by_cases hm : (compareReportImages env parent.images finder.images mc).matched
    · simp only [hm, if_true]
      obtain ⟨hup, huf, hukeys⟩ := upsertMatched_effect db parent.id fid
        (compareReportImages env parent.images finder.images mc).confidence
      obtain ⟨hnp, hnf, hnk⟩ := ctrlNotifyBlock_effect env
        (upsertMatched db parent.id fid
          (compareReportImages env parent.images finder.images mc).confidence).1
        parent.ownerId finder.ownerId
        (upsertMatched db parent.id fid
          (compareReportImages env parent.images finder.images mc).confidence).2.id
        (compareReportImages env parent.images finder.images mc).confidence
      refine ⟨hnp.trans hup, hnf.trans huf, ?_⟩
      rcases hukeys with h | ⟨hfp, h⟩
      · exact Or.inl (hnk.trans h)
      · exact Or.inr ⟨(findPair_eq_none_iff db _ _).1 hfp, hnk.trans h⟩
    · simp [hm]

theorem ctrlLoop_invariants {α : Type} (step : Db → Report → Db × Option α)
    (newkey : Report → ℕ × ℕ)
    (hstep : ∀ db t,
      (step db t).1.parentReports = db.parentReports ∧
      (step db t).1.finderReports = db.finderReports ∧
      (dbKeys (step db t).1 = dbKeys db ∨
        (newkey t ∉ dbKeys db ∧ dbKeys (step db t).1 = dbKeys db ++ [newkey t]))) :
    ∀ (ts : List Report) (db : Db),
      (ctrlLoop step ts db).1.parentReports = db.parentReports ∧
      (ctrlLoop step ts db).1.finderReports = db.finderReports ∧
      ((dbKeys db).Nodup → (dbKeys (ctrlLoop step ts db).1).Nodup) ∧
      (∀ k ∈ dbKeys (ctrlLoop step ts db).1, k ∈ dbKeys db ∨ ∃ t ∈ ts, k = newkey t) := by
  intro ts
  induction ts with
  | nil =>
    intro db
    exact ⟨rfl, rfl, fun h => h, fun k hk => Or.inl hk⟩
  | cons t ts ih =>
    intro db
    obtain ⟨hp1, hf1, hk1⟩ := hstep db t
    rcases hst : step db t with ⟨db1, o⟩
    rw [hst] at hp1 hf1 hk1
    have ih1 := ih db1
    have hnodup1 : (dbKeys db).Nodup → (dbKeys db1).Nodup := by
      intro h
      rcases hk1 with h1 | ⟨habs, h1⟩
      · rw [h1]; exact h
      · rw [h1, List.nodup_append]
        refine ⟨h, List.nodup_singleton _, ?_⟩
        intro a ha hb
        rw [List.mem_singleton] at hb
        subst hb
        exact habs ha
    have hkeys1 : ∀ k ∈ dbKeys db1, k ∈ dbKeys db ∨ k = newkey t := by
      intro k hk
      rcases hk1 with h1 | ⟨_, h1⟩
      · rw [h1] at hk; exact Or.inl hk
      · rw [h1] at hk
        rcases List.mem_append.1 hk with h | h
        · exact Or.inl h
        · exact Or.inr (List.mem_singleton.1 h)
    have hgoal : ∀ (db2 : Db), db2 = (ctrlLoop step ts db1).1 →
        db2.parentReports = db.parentReports ∧ db2.finderReports = db.finderReports ∧
        ((dbKeys db).Nodup → (dbKeys db2).Nodup) ∧
        (∀ k ∈ dbKeys db2, k ∈ dbKeys db ∨ ∃ u ∈ t :: ts, k = newkey u) := by
      rintro db2 rfl
      refine ⟨ih1.1.trans hp1, ih1.2.1.trans hf1, fun h => ih1.2.2.1 (hnodup1 h), ?_⟩
      intro k hk
      rcases ih1.2.2.2 k hk with h | ⟨u, hu, hku⟩
      · rcases hkeys1 k h with h' | h'
        · exact Or.inl h'
        · exact Or.inr ⟨t, List.mem_cons_self _ _, h'⟩
      · exact Or.inr ⟨u, List.mem_cons_of_mem _ hu, hku⟩
    cases o with
    | none =>
      have := hgoal (ctrlLoop step ts db1).1 rfl
      simpa [ctrlLoop, hst] using this
    | some a =>
      have := hgoal (ctrlLoop step ts db1).1 rfl
      rcases hrec : ctrlLoop step ts db1 with ⟨db2, rest⟩
      rw [hrec] at this
      simpa [ctrlLoop, hst, hrec] using this

theorem findMatchesForParentReport_invariants (env : OracleEnv) (db : Db)
    (pid : ℕ) (mc : ℝ) :
    (findMatchesForParentReport env db pid mc).1.parentReports = db.parentReports ∧
    (findMatchesForParentReport env db pid mc).1.finderReports = db.finderReports ∧
    (PairUnique db.matchedCases →
      PairUnique (findMatchesForParentReport env db pid mc).1.matchedCases) ∧
    (∀ k ∈ dbKeys (findMatchesForParentReport env db pid mc).1,
      k ∈ dbKeys db ∨ canonicalKeyOK db k) := by
  rcases hsrc : findReport db.parentReports pid with _ | parent
  · simp only [findMatchesForParentReport, hsrc]
    exact ⟨by trivial, by trivial, fun h => h, fun k hk => Or.inl hk⟩
  · simp only [findMatchesForParentReport, hsrc]
    by_cases hempty : parent.images.isEmpty
    · simp only [hempty, if_true]
      exact ⟨by trivial, by trivial, fun h => h, fun k hk => Or.inl hk⟩
    · simp only [hempty, Bool.false_eq_true, if_false]
      have hloop := ctrlLoop_invariants (ctrlParentStep env pid parent mc)
        (fun t => (pid, t.id))
        (fun db' t => ctrlParentStep_effect env pid parent mc db' t)
        (db.finderReports.filter (fun r => r.status = CaseStatus.ACTIVE)) db
      refine ⟨hloop.1, hloop.2.1, hloop.2.2.1, ?_⟩
      intro k hk
      rcases hloop.2.2.2 k hk with h | ⟨t, ht, hkt⟩
      · exact Or.inl h
      · subst hkt
        obtain ⟨hmem, hid⟩ := findReport_some hsrc
        exact Or.inr ⟨List.mem_map.2 ⟨parent, hmem, hid⟩,
          List.mem_map.2 ⟨t, List.mem_of_mem_filter ht, rfl⟩⟩

theorem findMatchesForFinderReport_invariants (env : OracleEnv) (db : Db)
    (fid : ℕ) (mc : ℝ) :
    (findMatchesForFinderReport env db fid mc).1.parentReports = db.parentReports ∧
    (findMatchesForFinderReport env db fid mc).1.finderReports = db.finderReports ∧
    (PairUnique db.matchedCases →
      PairUnique (findMatchesForFinderReport env db fid mc).1.matchedCases) ∧
    (∀ k ∈ dbKeys (findMatchesForFinderReport env db fid mc).1,
      k ∈ dbKeys db ∨ canonicalKeyOK db k) := by
  rcases hsrc : findReport db.finderReports fid with _ | finder
  · simp only [findMatchesForFinderReport, hsrc]
    exact ⟨by trivial, by trivial, fun h => h, fun k hk => Or.inl hk⟩
  · simp only [findMatchesForFinderReport, hsrc]
    by_cases hempty : finder.images.isEmpty
    · simp only [hempty, if_true]
      exact ⟨by trivial, by trivial, fun h => h, fun k hk => Or.inl hk⟩
    · simp only [hempty, Bool.false_eq_true, if_false]
      have hloop := ctrlLoop_invariants (ctrlFinderStep env fid finder mc)
        (fun t => (t.id, fid))
        (fun db' t => ctrlFinderStep_effect env fid finder mc db' t)
        (db.parentReports.filter (fun r => r.status = CaseStatus.ACTIVE)) db
      refine ⟨hloop.1, hloop.2.1, hloop.2.2.1, ?_⟩
      intro k hk
      rcases hloop.2.2.2 k hk with h | ⟨t, ht, hkt⟩
      · exact Or.inl h
      · subst hkt
        obtain ⟨hmem, hid⟩ := findReport_some hsrc
        exact Or.inr ⟨List.mem_map.2 ⟨t, List.mem_of_mem_filter ht, rfl⟩,
          List.mem_map.2 ⟨finder, hmem, hid⟩⟩

theorem compareSpecificReports_invariants (env : OracleEnv) (db : Db)
    (pid fid : ℕ) (mc : ℝ) :
    (compareSpecificReports env db pid fid mc).1.parentReports = db.parentReports ∧
    (compareSpecificReports env db pid fid mc).1.finderReports = db.finderReports ∧
    (PairUnique db.matchedCases →
      PairUnique (compareSpecificReports env db pid fid mc).1.matchedCases) ∧
    (∀ k ∈ dbKeys (compareSpecificReports env db pid fid mc).1,
      k ∈ dbKeys db ∨ canonicalKeyOK db k) := by
  rcases hp : findReport db.parentReports pid with _ | parent <;>
    rcases hf : findReport db.finderReports fid with _ | finder <;>
      simp only [compareSpecificReports, hp, hf]
  · exact ⟨by trivial, by trivial, fun h => h, fun k hk => Or.inl hk⟩
  · exact ⟨by trivial, by trivial, fun h => h, fun k hk => Or.inl hk⟩
  · exact ⟨by trivial, by trivial, fun h => h, fun k hk => Or.inl hk⟩
  · by_cases hempty : parent.images.isEmpty ∨ finder.images.isEmpty
    · simp only [hempty, if_true]
      exact ⟨by trivial, by trivial, fun h => h, fun k hk => Or.inl hk⟩
    · simp only [hempty, if_false]
      by_cases hm : (compareReportImages env parent.images finder.images mc).matched
      · simp only [hm, if_true]
        obtain ⟨hup, huf, hukeys⟩ := upsertMatched_effect db pid fid
          (compareReportImages env parent.images finder.images mc).confidence
        refine ⟨hup, huf, ?_, ?_⟩
        · intro h
          rcases hukeys with hk | ⟨hfp, hk⟩
          · rw [pairUnique_iff_keys] at h ⊢
            rw [hk]; exact h
          · rw [pairUnique_iff_keys] at h ⊢
            rw [hk, List.nodup_append]
            refine ⟨h, List.nodup_singleton _, ?_⟩
            intro x hx hx'
            rw [List.mem_singleton] at hx'
            subst hx'
            exact (findPair_eq_none_iff db _ _).1 hfp hx
        · intro k hk
          rcases hukeys with hke | ⟨hfp, hke⟩
          · rw [hke] at hk; exact Or.inl hk
          · rw [hke] at hk
            rcases List.mem_append.1 hk with h | h
            · exact Or.inl h
            · rw [List.mem_singleton] at h
              subst h
              obtain ⟨hpm, hpid⟩ := findReport_some hp
              obtain ⟨hfm, hfid⟩ := findReport_some hf
              exact Or.inr ⟨List.mem_map.2 ⟨parent, hpm, hpid⟩,
                List.mem_map.2 ⟨finder, hfm, hfid⟩⟩
      · simp only [hm, Bool.false_eq_true, if_false]
        exact ⟨by trivial, by trivial, fun h => h, fun k hk => Or.inl hk⟩

/-! ### Notification outcomes never influence which matches are persisted

The controller paths wrap their notification block in try/catch.  We show
that two runs differing only in notification-delivery outcomes produce
the same `matched_cases` rows up to the `notificationSent` flag, and the
same response. -/

/-- Forget the `notificationSent` flag of a row. -/
def stripFlag (m : MatchedCase) : MatchedCase := { m with notificationSent := false }

/-- Two database states that agree except for notification side effects:
same report tables, same `matched_cases` rows up to `notificationSent`,
same id sequence (the `notifications` table is free to differ). -/
def FlagAgnostic (db db' : Db) : Prop :=
  db'.parentReports = db.parentReports ∧ db'.finderReports = db.finderReports ∧
  db'.matchedCases.map stripFlag = db.matchedCases.map stripFlag ∧
  db'.nextMatchId = db.nextMatchId

theorem flagAgnostic_refl (db : Db) : FlagAgnostic db db := ⟨rfl, rfl, rfl, rfl⟩

theorem flagAgnostic_symm {db db' : Db} (h : FlagAgnostic db db') : FlagAgnostic db' db :=
  ⟨h.1.symm, h.2.1.symm, h.2.2.1.symm, h.2.2.2.symm⟩

theorem flagAgnostic_trans {a b c : Db} (h1 : FlagAgnostic a b) (h2 : FlagAgnostic b c) :
    FlagAgnostic a c :=
  ⟨h2.1.trans h1.1, h2.2.1.trans h1.2.1, h2.2.2.1.trans h1.2.2.1, h2.2.2.2.trans h1.2.2.2⟩

theorem map_eq_find?_rel {α β : Type} (g : α → β) (pr : α → Bool)
    (hpr : ∀ m m', g m = g m' → pr m = pr m') :
    ∀ {l l' : List α}, l.map g = l'.map g →
      (l.find? pr).map g = (l'.find? pr).map g := by
  intro l
  induction l with
  | nil =>
    intro l' h
    cases l' with
    | nil => rfl
    | cons y ys => simp at h
  | cons x xs ih =>
    intro l' h
    cases l' with
    | nil => simp at h
    | cons y ys =>
      simp only [List.map_cons, List.cons.injEq] at h
      obtain ⟨hxy, hrest⟩ := h
      have hpx : pr x = pr y := hpr x y hxy
      by_cases hx : pr x = true
      · rw [List.find?_cons_of_pos _ hx, List.find?_cons_of_pos _ (hpx ▸ hx)]
        simp [hxy]
      · have hx' : ¬ pr y = true := fun h => hx (hpx ▸ h)
        rw [List.find?_cons_of_neg _ (by simpa using hx),
          List.find?_cons_of_neg _ (by simpa using hx')]
        exact ih hrest

theorem findPair_rel {db db' : Db}
    (h : db'.matchedCases.map stripFlag = db.matchedCases.map stripFlag) (p f : ℕ) :
    (findPair db' p f).map stripFlag = (findPair db p f).map stripFlag := by
  unfold findPair
  exact map_eq_find?_rel stripFlag _ (fun m m' hg => by
    have h1 : m.parentCaseId = m'.parentCaseId := by
      have := congrArg MatchedCase.parentCaseId hg
      simpa [stripFlag] using this
    have h2 : m.finderCaseId = m'.finderCaseId := by
      have := congrArg MatchedCase.finderCaseId hg
      simpa [stripFlag] using this
    simp [h1, h2]) h

/-- The conf/status overwrite commutes with forgetting the flag. -/
theorem stripFlag_upd_comm (mid : ℕ) (c : ℝ) (m : MatchedCase) :
    stripFlag (if m.id = mid then
        { m with matchConfidence := c, status := MatchStatus.MATCHED } else m) =
      (if (stripFlag m).id = mid then
        { stripFlag m with matchConfidence := c, status := MatchStatus.MATCHED }
       else stripFlag m) := by
  by_cases h : m.id = mid <;> simp [stripFlag, h]

theorem upsertMatched_rel {db db' : Db} (hR : FlagAgnostic db db') (p f : ℕ) (c : ℝ) :
    FlagAgnostic (upsertMatched db p f c).1 (upsertMatched db' p f c).1 ∧
    (upsertMatched db' p f c).2.id = (upsertMatched db p f c).2.id := by
  obtain ⟨hP, hF, hM, hN⟩ := hR
  have hfp := findPair_rel hM p f
  rcases h1 : findPair db p f with _ | ex
  · rcases h2 : findPair db' p f with _ | ex'
    · -- both fresh: both create the same new row
      simp only [upsertMatched, h1, h2, createMatchedCase]
      refine ⟨⟨by simpa using hP, by simpa using hF, ?_, by simpa using hN⟩, by simp [hN]⟩
      simp [List.map_append, hM, hN, stripFlag]
    · rw [h1, h2] at hfp; simp at hfp
  · rcases h2 : findPair db' p f with _ | ex'
    · rw [h1, h2] at hfp; simp at hfp
    · rw [h1, h2] at hfp
      have hex : stripFlag ex' = stripFlag ex := by simpa using hfp
      have hid : ex'.id = ex.id := by
        have := congrArg MatchedCase.id hex
        simpa [stripFlag] using this
      simp only [upsertMatched, h1, h2, updateMatchedCase]
      refine ⟨⟨by simpa using hP, by simpa using hF, ?_, by simpa using hN⟩, by simp [hid]⟩
      rw [hid]
      calc (db'.matchedCases.map fun m => if m.id = ex.id then
              { m with matchConfidence := c, status := MatchStatus.MATCHED } else m).map stripFlag
          = (db'.matchedCases.map stripFlag).map fun m => if m.id = ex.id then
              { m with matchConfidence := c, status := MatchStatus.MATCHED } else m := by
            simp only [List.map_map]
            exact List.map_congr_left (fun m _ => stripFlag_upd_comm ex.id c m)
        _ = (db.matchedCases.map stripFlag).map fun m => if m.id = ex.id then
              { m with matchConfidence := c, status := MatchStatus.MATCHED } else m := by
            rw [hM]
        _ = (db.matchedCases.map fun m => if m.id = ex.id then
              { m with matchConfidence := c, status := MatchStatus.MATCHED } else m).map stripFlag := by
            simp only [List.map_map]
            exact (List.map_congr_left (fun m _ => stripFlag_upd_comm ex.id c m)).symm

/-- Model of `ctrlNotifyBlock` never changes a database state beyond notification
rows and the `notificationSent` flag. -/
theorem ctrlNotifyBlock_selfR (env : OracleEnv) (db : Db) (a b mid : ℕ) (c : ℝ) :
    FlagAgnostic db (ctrlNotifyBlock env db a b mid c) := by
  rcases sendNotification_cases env.notify db ⟨some a, mid, c⟩ with h1 | h1
  · simp [ctrlNotifyBlock, h1, flagAgnostic_refl]
  · rcases sendNotification_cases env.notify
        { db with notifications := db.notifications ++ [⟨some a, mid, c⟩] }
        ⟨some b, mid, c⟩ with h2 | h2
    · simp only [ctrlNotifyBlock, h1, h2]
      exact ⟨rfl, rfl, rfl, rfl⟩
    · simp only [ctrlNotifyBlock, h1, h2, updateMatchedCase]
      refine ⟨rfl, rfl, ?_, rfl⟩
      simp only [List.map_map]
      exact List.map_congr_left (fun m _ => by
        by_cases h : m.id = mid <;> simp [stripFlag, h]) |>.symm

theorem compareTwoFaces_congr {env1 env2 : OracleEnv} (h : env1.oracle = env2.oracle)
    (u1 u2 : ℕ) (tol : ℝ) :
    compareTwoFaces env1 u1 u2 tol = compareTwoFaces env2 u1 u2 tol := by
  unfold compareTwoFaces
  rw [h]

theorem compareMultipleFaces_congr {env1 env2 : OracleEnv} (h : env1.oracle = env2.oracle)
    (srcUrl : ℕ) (targetUrls : List ℕ) (tol mc : ℝ) :
    compareMultipleFaces env1 srcUrl targetUrls tol mc =
      compareMultipleFaces env2 srcUrl targetUrls tol mc := by
  unfold compareMultipleFaces
  simp only [compareTwoFaces_congr h]

theorem compareReportImages_congr {env1 env2 : OracleEnv} (h : env1.oracle = env2.oracle)
    (pimgs fimgs : List ReportImage) (mc : ℝ) :
    compareReportImages env1 pimgs fimgs mc = compareReportImages env2 pimgs fimgs mc := by
  unfold compareReportImages
  simp only [compareMultipleFaces_congr h]

theorem ctrlParentStep_rel (env1 env2 : OracleEnv) (hor : env1.oracle = env2.oracle)
    (pid : ℕ) (parent : Report) (mc : ℝ) {db db' : Db} (hR : FlagAgnostic db db')
    (t : Report) :
    FlagAgnostic (ctrlParentStep env1 pid parent mc db t).1
        (ctrlParentStep env2 pid parent mc db' t).1 ∧
    (ctrlParentStep env1 pid parent mc db t).2 =
        (ctrlParentStep env2 pid parent mc db' t).2 := by
  unfold ctrlParentStep
  rw [compareReportImages_congr hor]
  by_cases hempty : t.images.isEmpty
  · simp [hempty, hR]
  · simp only [hempty, Bool.false_eq_true, if_false]
    by_cases hm : (compareReportImages env2 parent.images t.images mc).matched
    · simp only [hm, if_true]
      obtain ⟨hRu, hid⟩ := upsertMatched_rel hR pid t.id
        (compareReportImages env2 parent.images t.images mc).confidence
      constructor
      · exact flagAgnostic_trans
          (flagAgnostic_trans
            (flagAgnostic_symm (ctrlNotifyBlock_selfR env1 _ parent.ownerId t.ownerId _ _))
            hRu)
          (ctrlNotifyBlock_selfR env2 _ parent.ownerId t.ownerId _ _)
      · simp [hid]
    · simp [hm, hR]

theorem ctrlLoop_rel {α : Type} (step1 step2 : Db → Report → Db × Option α)
    (hstep : ∀ db db' t, FlagAgnostic db db' →
      FlagAgnostic (step1 db t).1 (step2 db' t).1 ∧ (step1 db t).2 = (step2 db' t).2) :
    ∀ (ts : List Report) (db db' : Db), FlagAgnostic db db' →
      FlagAgnostic (ctrlLoop step1 ts db).1 (ctrlLoop step2 ts db').1 ∧
      (ctrlLoop step1 ts db).2 = (ctrlLoop step2 ts db').2 := by
  intro ts
  induction ts with
  | nil => intro db db' h; exact ⟨h, rfl⟩
  | cons t ts ih =>
    intro db db' h
    obtain ⟨h1, h2⟩ := hstep db db' t h
    rcases hs1 : step1 db t with ⟨db1, o1⟩
    rcases hs2 : step2 db' t with ⟨db1', o2⟩
    rw [hs1, hs2] at h1 h2
    simp only at h1 h2
    subst h2
    obtain ⟨hR', hout⟩ := ih db1 db1' h1
    cases o1 with
    | none =>
      rcases hr1 : ctrlLoop step1 ts db1 with ⟨db2, rest1⟩
      rcases hr2 : ctrlLoop step2 ts db1' with ⟨db2', rest2⟩
      rw [hr1, hr2] at hR' hout
      simp only [ctrlLoop, hs1, hs2, hr1, hr2]
      exact ⟨hR', hout⟩
    | some a =>
      rcases hr1 : ctrlLoop step1 ts db1 with ⟨db2, rest1⟩
      rcases hr2 : ctrlLoop step2 ts db1' with ⟨db2', rest2⟩
      rw [hr1, hr2] at hR' hout
      simp only at hR' hout
      simp only [ctrlLoop, hs1, hs2, hr1, hr2]
      exact ⟨hR', by rw [hout]⟩

/-- Clearing the notification environment: delivery always succeeds. -/
def cleanNotify : NotifyEnv := ⟨fun _ => false⟩

/-- Which matches `findMatchesForParentReport` persists, with which
confidence and status, and whether the call succeeds, is independent of
notification-delivery outcomes; only `notificationSent` flags, and the
notification rows themselves, can differ. -/
theorem findMatchesForParentReport_notifyIndependent (env : OracleEnv)
    (n2 : NotifyEnv) (db : Db) (pid : ℕ) (mc : ℝ) :
    FlagAgnostic (findMatchesForParentReport env db pid mc).1
        (findMatchesForParentReport { env with notify := n2 } db pid mc).1 ∧
    (findMatchesForParentReport env db pid mc).2 =
        (findMatchesForParentReport { env with notify := n2 } db pid mc).2 := by
  rcases hsrc : findReport db.parentReports pid with _ | parent
  · simp only [findMatchesForParentReport, hsrc]
    exact ⟨flagAgnostic_refl db, by trivial⟩
  · simp only [findMatchesForParentReport, hsrc]
    by_cases hempty : parent.images.isEmpty
    · simp only [hempty, if_true]
      exact ⟨flagAgnostic_refl db, by trivial⟩
    · simp only [hempty, Bool.false_eq_true, if_false]
      have hloop := ctrlLoop_rel (ctrlParentStep env pid parent mc)
        (ctrlParentStep { env with notify := n2 } pid parent mc)
        (fun db1 db1' t hR =>
          ctrlParentStep_rel env { env with notify := n2 } rfl pid parent mc hR t)
        (db.finderReports.filter (fun r => r.status = CaseStatus.ACTIVE)) db db
        (flagAgnostic_refl db)
      exact ⟨hloop.1, by rw [hloop.2]⟩

/-! ### Behaviour of the vector path on a notification failure -/

theorem parentOwner_create (db : Db) (p f x : ℕ) (c : ℝ) (st : MatchStatus) :
    parentOwner (createMatchedCase db p f c st).1 x = parentOwner db x := rfl

theorem finderOwner_create (db : Db) (p f x : ℕ) (c : ℝ) (st : MatchStatus) :
    finderOwner (createMatchedCase db p f c st).1 x = finderOwner db x := rfl

/-- If an accepted fresh pair's first notification (to the parent-side
owner) throws, the whole `findMatches` target loop stops right there:
the freshly created row stays in the database, the error propagates, and
no later target is examined. -/
theorem vectorLoop_abort (env : NotifyEnv) (rt : ReportRole) (rid : ℕ) (src : Report)
    (db : Db) (t : Report) (ts : List Report)
    (hacc : accepts src t)
    (hfp : findPair db (canonicalPair rt rid t.id).1 (canonicalPair rt rid t.id).2 = none)
    (hfail : env.fails (some (parentOwner db (canonicalPair rt rid t.id).1)) = true) :
    vectorLoop env rt rid src (t :: ts) db =
      ((createMatchedCase db (canonicalPair rt rid t.id).1 (canonicalPair rt rid t.id).2
          (bestSimilarity src t) MatchStatus.PENDING).1,
        .error "notification failed") := by
  have hstep : vectorStep env rt rid src db t =
      ((createMatchedCase db (canonicalPair rt rid t.id).1 (canonicalPair rt rid t.id).2
          (bestSimilarity src t) MatchStatus.PENDING).1,
        .error "notification failed") := by
    unfold vectorStep
    simp only [if_pos hacc, vectorUpsert, hfp]
    rw [vectorNotify, sendNotification]
    simp only [parentOwner_create, hfail, if_true]
  rw [vectorLoop, hstep]

/-! ### The two upsert disciplines, explicitly -/

theorem vectorUpsert_existing {db : Db} {p f : ℕ} {conf : ℝ} {ex : MatchedCase}
    (h : findPair db p f = some ex) :
    vectorUpsert db p f conf = (db, none) := by
  simp [vectorUpsert, h]

theorem vectorUpsert_fresh {db : Db} {p f : ℕ} {conf : ℝ} (h : findPair db p f = none) :
    vectorUpsert db p f conf =
      ((createMatchedCase db p f conf MatchStatus.PENDING).1,
        some (createMatchedCase db p f conf MatchStatus.PENDING).2) := by
  simp [vectorUpsert, h]

/-- The row written by `prisma.matchedCase.create`, field by field, and
its effect on the table. -/
theorem createMatchedCase_fields (db : Db) (p f : ℕ) (conf : ℝ) (st : MatchStatus) :
    (createMatchedCase db p f conf st).1.matchedCases
        = db.matchedCases ++ [(createMatchedCase db p f conf st).2] ∧
    (createMatchedCase db p f conf st).2.parentCaseId = p ∧
    (createMatchedCase db p f conf st).2.finderCaseId = f ∧
    (createMatchedCase db p f conf st).2.matchConfidence = conf ∧
    (createMatchedCase db p f conf st).2.status = st ∧
    (createMatchedCase db p f conf st).2.notificationSent = false := by
  simp [createMatchedCase]

theorem upsertMatched_existing {db : Db} {p f : ℕ} {conf : ℝ} {ex : MatchedCase}
    (h : findPair db p f = some ex) :
    (upsertMatched db p f conf).1 = updateMatchedCase db ex.id
        (fun m => { m with matchConfidence := conf, status := MatchStatus.MATCHED }) ∧
    (upsertMatched db p f conf).2 =
        { ex with matchConfidence := conf, status := MatchStatus.MATCHED } := by
  simp [upsertMatched, h]

theorem upsertMatched_fresh {db : Db} {p f : ℕ} {conf : ℝ} (h : findPair db p f = none) :
    upsertMatched db p f conf = createMatchedCase db p f conf MatchStatus.MATCHED := by
  simp [upsertMatched, h]

/-! ### `bestSimilarity` computes the maximum over comparable image pairs -/

/-- The comparable image pairs of a source and a target report: all
(source image, target image) combinations in which both embedding
vectors are non-empty — the pairs the nested loops of `findMatches`
actually score.  Spec-side definition (§4.3 step 3). -/
def comparablePairs (src tgt : Report) : List (ReportImage × ReportImage) :=
  (src.images.filter (fun si => si.embeddingVector ≠ [])).flatMap
    (fun si => (tgt.images.filter (fun ti => ti.embeddingVector ≠ [])).map
      (fun ti => (si, ti)))

/-- Spec-side best score: `max` over the similarity of every comparable
pair, taken as 0 when there are no comparable pairs (§4.3 step 3). -/
def specBestScore (src tgt : Report) : ℝ :=
  ((comparablePairs src tgt).map
    (fun p => calculateSimilarity p.1.embeddingVector p.2.embeddingVector)).foldl max 0

theorem ite_lt_max (b s : ℝ) : (if b < s then s else b) = max b s := by
  rcases le_or_lt s b with h | h
  · rw [if_neg (not_lt.2 h), max_eq_left h]
  · rw [if_pos h, max_eq_right h.le]

theorem bestSim_inner_eq (v : List ℝ) :
    ∀ (timgs : List ReportImage) (b : ℝ),
      timgs.foldl (fun bb ti =>
          if ti.embeddingVector = [] then bb
          else if bb < calculateSimilarity v ti.embeddingVector then
            calculateSimilarity v ti.embeddingVector else bb) b
        = ((timgs.filter (fun ti => ti.embeddingVector ≠ [])).map
            (fun ti => calculateSimilarity v ti.embeddingVector)).foldl max b := by
  intro timgs
  induction timgs with
  | nil => intro b; rfl
  | cons t ts ih =>
    intro b
    by_cases ht : t.embeddingVector = []
    · rw [List.foldl_cons, if_pos ht, List.filter_cons, if_neg (by simp [ht])]
      exact ih b
    · rw [List.foldl_cons, if_neg ht, List.filter_cons, if_pos (decide_eq_true ht),
        List.map_cons, List.foldl_cons, ite_lt_max]
      exact ih _

theorem bestSim_outer_eq (tgt : Report) :
    ∀ (simgs : List ReportImage) (b : ℝ),
      simgs.foldl (fun best si =>
          if si.embeddingVector = [] then best
          else tgt.images.foldl (fun bb ti =>
            if ti.embeddingVector = [] then bb
            else if bb < calculateSimilarity si.embeddingVector ti.embeddingVector then
              calculateSimilarity si.embeddingVector ti.embeddingVector else bb) best) b
        = (((simgs.filter (fun si => si.embeddingVector ≠ [])).flatMap
            (fun si => (tgt.images.filter (fun ti => ti.embeddingVector ≠ [])).map
              (fun ti => (si, ti)))).map
            (fun p => calculateSimilarity p.1.embeddingVector p.2.embeddingVector)).foldl
              max b := by
  intro simgs
  induction simgs with
  | nil => intro b; rfl
  | cons s ss ih =>
    intro b
    by_cases hs : s.embeddingVector = []
    · rw [List.foldl_cons, if_pos hs, List.filter_cons, if_neg (by simp [hs])]
      exact ih b
    · rw [List.foldl_cons, if_neg hs, List.filter_cons, if_pos (decide_eq_true hs),
        List.flatMap_cons, List.map_append, List.foldl_append, List.map_map]
      rw [bestSim_inner_eq s.embeddingVector tgt.images b, ih]
      have hmap : (tgt.images.filter (fun ti => ti.embeddingVector ≠ [])).map
            ((fun p : ReportImage × ReportImage =>
              calculateSimilarity p.1.embeddingVector p.2.embeddingVector) ∘
              fun ti => (s, ti))
          = (tgt.images.filter (fun ti => ti.embeddingVector ≠ [])).map
              (fun ti => calculateSimilarity s.embeddingVector ti.embeddingVector) := by
        apply List.map_congr_left
        intro ti _
        rfl
      rw [hmap]

theorem bestSimilarity_eq_spec (src tgt : Report) :
    bestSimilarity src tgt = specBestScore src tgt := by
  unfold bestSimilarity specBestScore comparablePairs
  exact bestSim_outer_eq tgt src.images 0

theorem foldl_max_is_ub : ∀ (l : List ℝ) (b : ℝ),
    b ≤ l.foldl max b ∧ ∀ x ∈ l, x ≤ l.foldl max b := by
  intro l
  induction l with
  | nil => intro b; exact ⟨le_refl b, by simp⟩
  | cons y ys ih =>
    intro b
    obtain ⟨hb, hmem⟩ := ih (max b y)
    refine ⟨(le_max_left b y).trans hb, ?_⟩
    intro x hx
    rcases List.mem_cons.1 hx with rfl | hx'
    · exact (le_max_right b x).trans hb
    · exact hmem x hx'

theorem foldl_max_attained : ∀ (l : List ℝ) (b : ℝ),
    l.foldl max b = b ∨ l.foldl max b ∈ l := by
  intro l
  induction l with
  | nil => intro b; exact Or.inl rfl
  | cons y ys ih =>
    intro b
    rcases ih (max b y) with h | h
    · rcases le_or_lt y b with hyb | hyb
      · rw [List.foldl_cons, h, max_eq_left hyb]
        exact Or.inl rfl
      · rw [List.foldl_cons, h, max_eq_right hyb.le]
        exact Or.inr (List.mem_cons_self _ _)
    · exact Or.inr (List.mem_cons_of_mem _ (by rw [List.foldl_cons]; exact h))

theorem bestSimilarity_nonneg (src tgt : Report) : 0 ≤ bestSimilarity src tgt := by
  rw [bestSimilarity_eq_spec]
  exact (foldl_max_is_ub _ 0).1

theorem bestSimilarity_empty {src tgt : Report} (h : comparablePairs src tgt = []) :
    bestSimilarity src tgt = 0 := by
  rw [bestSimilarity_eq_spec, specBestScore, h]
  rfl

/-! ## Concrete scenarios used to exercise the pipeline -/

/-- A parent report with one processed image (embedding `[1,0,0]`). -/
def exParent : Report :=
  { id := 1, status := .ACTIVE, ownerId := 10,
    images := [{ id := 100, imageUrl := 1000, embeddingVector := [1, 0, 0] }] }

/-- A finder report with one processed image (embedding `[1,0,0]`). -/
def exFinder : Report :=
  { id := 2, status := .ACTIVE, ownerId := 20,
    images := [{ id := 200, imageUrl := 2000, embeddingVector := [1, 0, 0] }] }

/-- A second finder report, same embedding. -/
def exFinder3 : Report :=
  { id := 3, status := .ACTIVE, ownerId := 30,
    images := [{ id := 300, imageUrl := 3000, embeddingVector := [1, 0, 0] }] }

/-- A stale `matched_cases` row for the pair (1, 2): PENDING with an old
confidence. -/
def staleRec : MatchedCase :=
  { id := 5, parentCaseId := 1, finderCaseId := 2, matchConfidence := 1 / 5,
    status := .PENDING, notificationSent := false }

/-- Database with one parent, one finder and the stale row. -/
def dbC2 : Db :=
  { parentReports := [exParent], finderReports := [exFinder],
    matchedCases := [staleRec], notifications := [], nextMatchId := 6 }

/-- Database with one parent and two finders, no matches yet. -/
def dbC8 : Db :=
  { parentReports := [exParent], finderReports := [exFinder, exFinder3],
    matchedCases := [], notifications := [], nextMatchId := 5 }

/-- Notification environment in which delivery to user 10 (the parent's
owner) throws and every other delivery succeeds. -/
def failEnv : NotifyEnv := ⟨fun r => r = some 10⟩

theorem bestSim_exFinder : bestSimilarity exParent exFinder = 1 := by
  unfold bestSimilarity exParent exFinder
  rw [List.foldl_cons, List.foldl_nil]
  rw [if_neg (by simp), List.foldl_cons, List.foldl_nil, if_neg (by simp)]
  rw [calcSim_basis_self, if_pos (by norm_num : (0 : ℝ) < 1)]

theorem bestSim_exFinder3 : bestSimilarity exParent exFinder3 = 1 := by
  unfold bestSimilarity exParent exFinder3
  rw [List.foldl_cons, List.foldl_nil]
  rw [if_neg (by simp), List.foldl_cons, List.foldl_nil, if_neg (by simp)]
  rw [calcSim_basis_self, if_pos (by norm_num : (0 : ℝ) < 1)]

theorem accepts_exFinder : accepts exParent exFinder := by
  unfold accepts SIMILARITY_THRESHOLD
  rw [bestSim_exFinder]
  norm_num

theorem accepts_exFinder3 : accepts exParent exFinder3 := by
  unfold accepts SIMILARITY_THRESHOLD
  rw [bestSim_exFinder3]
  norm_num

/-- Running the vector resolver over `dbC2` (accepted candidate, row for
the pair already present): the whole `matched_cases` table is returned
exactly as it was — the stale row keeps confidence 1/5 and status
PENDING. -/
theorem findMatchesVec_dbC2_eval :
    findMatchesVec cleanNotify dbC2 1 .PARENT = (dbC2, .ok []) := by
  have hsrc : vecSource dbC2 1 .PARENT = some exParent := rfl
  have htgt : vecTargets dbC2 1 .PARENT = [exFinder] := rfl
  have hfp : findPair dbC2 1 2 = some staleRec := rfl
  simp only [findMatchesVec, hsrc, htgt]
  have hstep : vectorStep cleanNotify .PARENT 1 exParent dbC2 exFinder =
      (dbC2, .ok none) := by
    unfold vectorStep
    rw [if_pos accepts_exFinder]
    have : canonicalPair ReportRole.PARENT 1 exFinder.id = (1, 2) := rfl
    rw [this]
    rw [vectorUpsert_existing hfp]
  simp [vectorLoop, hstep]

/-- Running the vector resolver over `dbC8` with failing parent-owner
notifications: the first accepted candidate's row is created, the
notification throws, the call aborts with the error, and the second
accepted candidate is never processed. -/
theorem findMatchesVec_dbC8_eval :
    findMatchesVec failEnv dbC8 1 .PARENT =
      ((createMatchedCase dbC8 1 2 (bestSimilarity exParent exFinder)
          MatchStatus.PENDING).1,
        .error "notification failed") := by
  have hsrc : vecSource dbC8 1 .PARENT = some exParent := rfl
  have htgt : vecTargets dbC8 1 .PARENT = [exFinder, exFinder3] := rfl
  simp only [findMatchesVec, hsrc, htgt]
  have habort := vectorLoop_abort failEnv .PARENT 1 exParent dbC8 exFinder [exFinder3]
    accepts_exFinder rfl rfl
  rw [habort]
  rfl

/-- Source report whose single embedding is `[1,0,0,0]`. -/
def bSrc : Report :=
  { id := 7, status := .ACTIVE, ownerId := 70,
    images := [{ id := 700, imageUrl := 7000, embeddingVector := [1, 0, 0, 0] }] }

/-- Target report whose single embedding is `[2,4,2,1]` — cosine 2/5
against `[1,0,0,0]`, i.e. rescaled score exactly 0.7. -/
def bTgt : Report :=
  { id := 8, status := .ACTIVE, ownerId := 80,
    images := [{ id := 800, imageUrl := 8000, embeddingVector := [2, 4, 2, 1] }] }

/-- Target report whose single embedding `[0,1,0]` is orthogonal to
`[1,0,0]` — rescaled score 1/2. -/
def oTgt : Report :=
  { id := 9, status := .ACTIVE, ownerId := 90,
    images := [{ id := 900, imageUrl := 9000, embeddingVector := [0, 1, 0] }] }

theorem bestSim_bTgt : bestSimilarity bSrc bTgt = 7 / 10 := by
  unfold bestSimilarity bSrc bTgt
  rw [List.foldl_cons, List.foldl_nil]
  rw [if_neg (by simp), List.foldl_cons, List.foldl_nil, if_neg (by simp)]
  rw [calcSim_boundary, if_pos (by norm_num : (0 : ℝ) < 7 / 10)]

theorem bestSim_oTgt : bestSimilarity exParent oTgt = 1 / 2 := by
  unfold bestSimilarity exParent oTgt
  rw [List.foldl_cons, List.foldl_nil]
  rw [if_neg (by simp), List.foldl_cons, List.foldl_nil, if_neg (by simp)]
  rw [calcSim_orthogonal, if_pos (by norm_num : (0 : ℝ) < 1 / 2)]

/-- Oracle environment whose service always answers `match: true`. -/
def okOracle : OracleEnv := ⟨fun _ _ => .ok (true, none), cleanNotify⟩

/-- Oracle environment whose service always answers `match: false`. -/
def noOracle : OracleEnv := ⟨fun _ _ => .ok (false, none), cleanNotify⟩

/-- Oracle environment whose calls always time out. -/
def downOracle : OracleEnv := ⟨fun _ _ => .error "timeout of 30000ms exceeded", cleanNotify⟩

/-! ## The claims -/

/-- C4: `calculateSimilarity` always returns a value in [0, 1]; it
returns exactly 0 when either argument is not an array, when the two
arrays differ in length, or when either vector has zero norm (covering
all-zero vectors and the case of two empty vectors) — and, being a total
function of its arguments in this model, it raises no error on any such
input. -/
theorem claim_C4_similarity_range_and_degenerate :
    (∀ a b : List ℝ, 0 ≤ calculateSimilarity a b ∧ calculateSimilarity a b ≤ 1) ∧
    (∀ v w : JsValue, v = JsValue.nonArray ∨ w = JsValue.nonArray →
      calculateSimilarityJs v w = 0) ∧
    (∀ a b : List ℝ, a.length ≠ b.length → calculateSimilarity a b = 0) ∧
    (∀ a b : List ℝ,
      Real.sqrt (sumSquares a) = 0 ∨ Real.sqrt (sumSquares b) = 0 →
      calculateSimilarity a b = 0) ∧
    calculateSimilarity [] [] = 0 := by
  refine ⟨calculateSimilarity_mem_Icc, ?_, fun a b h => calculateSimilarity_length_ne h,
    ?_, ?_⟩
  · rintro v w (rfl | rfl)
    · rfl
    · cases v <;> rfl
  · intro a b h
    apply calculateSimilarity_zero_norm
    rcases h with h | h
    · exact Or.inl ((Real.sqrt_eq_zero (sumSquares_nonneg a)).1 h)
    · exact Or.inr ((Real.sqrt_eq_zero (sumSquares_nonneg b)).1 h)
  · exact calculateSimilarity_zero_norm (Or.inl rfl)

/-- C4 witness: concrete instances of each degenerate case and of the
range bound. -/
theorem claim_C4_witness :
    calculateSimilarityJs JsValue.nonArray (JsValue.arr [1]) = 0 ∧
    (([1, 2] : List ℝ).length ≠ ([1, 2, 3] : List ℝ).length ∧
      calculateSimilarity [1, 2] [1, 2, 3] = 0) ∧
    (Real.sqrt (sumSquares [0, 0]) = 0 ∧ calculateSimilarity [0, 0] [1, 1] = 0) ∧
    (0 ≤ calculateSimilarity [3, 4] [1, 0] ∧ calculateSimilarity [3, 4] [1, 0] ≤ 1) := by
  have hz : Real.sqrt (sumSquares [(0 : ℝ), 0]) = 0 := by
    have : sumSquares [(0 : ℝ), 0] = 0 := by norm_num [sumSquares]
    rw [this, Real.sqrt_zero]
  exact ⟨claim_C4_similarity_range_and_degenerate.2.1 _ _ (Or.inl rfl),
    ⟨by simp, claim_C4_similarity_range_and_degenerate.2.2.1 _ _ (by simp)⟩,
    ⟨hz, claim_C4_similarity_range_and_degenerate.2.2.2.1 _ _ (Or.inl hz)⟩,
    claim_C4_similarity_range_and_degenerate.1 [3, 4] [1, 0]⟩

/-- C5: `calculateSimilarity` is symmetric in its two arguments (and, as
a function in this model, pure and deterministic by construction). -/
theorem claim_C5_similarity_symmetric :
    ∀ a b : List ℝ, calculateSimilarity a b = calculateSimilarity b a :=
  calculateSimilarity_comm

/-- C6: the self-similarity of any vector with at least one non-zero
entry is exactly 1. -/
theorem claim_C6_self_similarity :
    ∀ v : List ℝ, (∃ x ∈ v, x ≠ 0) → calculateSimilarity v v = 1 :=
  fun _ h => calculateSimilarity_self h

/-- C6 witness: `[1,0,0]` has a non-zero entry and scores 1 against
itself. -/
theorem claim_C6_witness :
    (∃ x ∈ ([1, 0, 0] : List ℝ), x ≠ 0) ∧
    calculateSimilarity [1, 0, 0] [1, 0, 0] = 1 :=
  ⟨⟨1, by simp, one_ne_zero⟩,
    claim_C6_self_similarity [1, 0, 0] ⟨1, by simp, one_ne_zero⟩⟩

/-- C7 (code bug): `processImageForMatching` does NOT degrade to the
fallback on an error raised inside its `try` block.  The `catch` block
evaluates `generateSimpleImageFeatures(buffer)`, but `buffer` is
`const`-declared inside the `try` block and is out of scope in the
`catch`, so the handler itself throws `ReferenceError: buffer is not
defined`, which propagates to the caller — both on a download failure
and on a throwing detection run.  Only the no-models fallback (reached
without an exception) returns the fingerprint. -/
theorem claim_C7_extractor_error_propagates :
    processImageForMatching ⟨.error "download failed", false, .ok []⟩
        = .error (.referenceError "buffer") ∧
    processImageForMatching ⟨.ok [(55 : Fin 256)], true, .error "detector crashed"⟩
        = .error (.referenceError "buffer") ∧
    (∀ buf : List (Fin 256), processImageForMatching ⟨.ok buf, false, .ok []⟩
        = .ok (generateSimpleImageFeatures buf)) :=
  ⟨rfl, rfl, fun _ => rfl⟩

/-- C9: the oracle adapter `compareTwoFaces` maps a successful boolean
answer through the fixed confidence mapping `true → 95`, `false → 30`,
and turns any failure of the call into
`{success: false, match: false, confidence: 0}` instead of throwing. -/
theorem claim_C9_oracle_confidence_mapping :
    (∀ (env : OracleEnv) (u1 u2 : ℕ) (tol : ℝ) (err : Option String),
      env.oracle u1 u2 = .ok (true, err) →
      compareTwoFaces env u1 u2 tol =
        { success := true, isMatch := true, confidence := 95, error := err }) ∧
    (∀ (env : OracleEnv) (u1 u2 : ℕ) (tol : ℝ) (err : Option String),
      env.oracle u1 u2 = .ok (false, err) →
      compareTwoFaces env u1 u2 tol =
        { success := true, isMatch := false, confidence := 30, error := err }) ∧
    (∀ (env : OracleEnv) (u1 u2 : ℕ) (tol : ℝ) (e : String),
      env.oracle u1 u2 = .error e →
      compareTwoFaces env u1 u2 tol =
        { success := false, isMatch := false, confidence := 0, error := some e }) := by
  refine ⟨?_, ?_, ?_⟩ <;>
    · intro env u1 u2 tol x h
      simp [compareTwoFaces, h]

/-- C9 witness: the three oracle outcomes at concrete URLs. -/
theorem claim_C9_witness :
    (okOracle.oracle 1 2 = .ok (true, none) ∧
      compareTwoFaces okOracle 1 2 (3 / 5) =
        { success := true, isMatch := true, confidence := 95, error := none }) ∧
    (noOracle.oracle 1 2 = .ok (false, none) ∧
      compareTwoFaces noOracle 1 2 (3 / 5) =
        { success := true, isMatch := false, confidence := 30, error := none }) ∧
    (downOracle.oracle 1 2 = .error "timeout of 30000ms exceeded" ∧
      compareTwoFaces downOracle 1 2 (3 / 5) =
        { success := false, isMatch := false, confidence := 0,
          error := some "timeout of 30000ms exceeded" }) :=
  ⟨⟨rfl, claim_C9_oracle_confidence_mapping.1 okOracle 1 2 (3 / 5) none rfl⟩,
    ⟨rfl, claim_C9_oracle_confidence_mapping.2.1 noOracle 1 2 (3 / 5) none rfl⟩,
    ⟨rfl, claim_C9_oracle_confidence_mapping.2.2 downOracle 1 2 (3 / 5) _ rfl⟩⟩

/-- C10 counterexample: on the empty buffer — a possible input — the
normal path still returns 129 entries, but the 128 byte samples read the
buffer out of bounds: entry 1 is `NaN`, which is not a real number in
[0, 1]; moreover the internal-failure vector has length 128, which does
NOT differ from the 128-dimensional face-descriptor embeddings. -/
theorem claim_C10_counterexample :
    (generateSimpleImageFeatures []).get? 1 = some JsNum.nan ∧
    (∀ x : ℝ, JsNum.nan ≠ JsNum.num x) ∧
    generateSimpleImageFeaturesFailure.length = 128 :=
  ⟨rfl, fun _ h => JsNum.noConfusion h, rfl⟩

/-- C10 (amended): for every NON-empty buffer the fallback fingerprint
has exactly 129 entries (normalized size plus 128 byte samples), each a
number in [0, 1]; the internal-failure path returns 128 zeros; and since
the normal-path length 129 differs from 128, `calculateSimilarity`
between a normal fallback vector (under any reading of its entries as
numbers) and any 128-length embedding is always 0. -/
theorem claim_C10_fallback_fingerprint :
    ∀ buf : List (Fin 256), buf ≠ [] →
      (generateSimpleImageFeatures buf).length = 129 ∧
      (∀ e ∈ generateSimpleImageFeatures buf,
        ∃ x : ℝ, e = JsNum.num x ∧ 0 ≤ x ∧ x ≤ 1) ∧
      generateSimpleImageFeaturesFailure = List.replicate 128 (JsNum.num 0) ∧
      (∀ (f : JsNum → ℝ) (b : List ℝ), b.length = 128 →
        calculateSimilarity ((generateSimpleImageFeatures buf).map f) b = 0) := by
  intro buf hbuf
  refine ⟨generateSimpleImageFeatures_length buf,
    generateSimpleImageFeatures_entries hbuf, rfl, ?_⟩
  intro f b hb
  apply calculateSimilarity_length_ne
  rw [List.length_map, generateSimpleImageFeatures_length, hb]
  norm_num

/-- C10 witness: a one-byte buffer. -/
theorem claim_C10_witness :
    ([(7 : Fin 256)] ≠ ([] : List (Fin 256))) ∧
    (generateSimpleImageFeatures [(7 : Fin 256)]).length = 129 ∧
    calculateSimilarity
        ((generateSimpleImageFeatures [(7 : Fin 256)]).map (fun _ => 0))
        (List.replicate 128 0) = 0 := by
  have hne : [(7 : Fin 256)] ≠ ([] : List (Fin 256)) := by simp
  have h := claim_C10_fallback_fingerprint [(7 : Fin 256)] hne
  exact ⟨hne, h.1, h.2.2.2 (fun _ => 0) (List.replicate 128 0) (by simp)⟩

/-- C1: every accept path of the matching pipeline — the vector resolver
`findMatches` and the three controller paths — preserves the at-most-one
row per logical pair invariant; every row it can add is stored in
canonical order (a parent-report id as `parentCaseId`, a finder-report
id as `finderCaseId`, whichever side triggered the search); when a row
for the pair already exists no path inserts a second one; and running
the vector resolver twice in sequence over an unchanged candidate set
leaves the database of the first run untouched, with exactly one row per
accepted pair. -/
theorem claim_C1_pair_uniqueness :
    (∀ env db rid rt, PairUnique db.matchedCases →
      PairUnique (findMatchesVec env db rid rt).1.matchedCases) ∧
    (∀ env db rid rt, ∀ k ∈ dbKeys (findMatchesVec env db rid rt).1,
      k ∈ dbKeys db ∨ canonicalKeyOK db k) ∧
    (∀ env db pid mc, PairUnique db.matchedCases →
      PairUnique (findMatchesForParentReport env db pid mc).1.matchedCases) ∧
    (∀ env db pid mc, ∀ k ∈ dbKeys (findMatchesForParentReport env db pid mc).1,
      k ∈ dbKeys db ∨ canonicalKeyOK db k) ∧
    (∀ env db fid mc, PairUnique db.matchedCases →
      PairUnique (findMatchesForFinderReport env db fid mc).1.matchedCases) ∧
    (∀ env db fid mc, ∀ k ∈ dbKeys (findMatchesForFinderReport env db fid mc).1,
      k ∈ dbKeys db ∨ canonicalKeyOK db k) ∧
    (∀ env db pid fid mc, PairUnique db.matchedCases →
      PairUnique (compareSpecificReports env db pid fid mc).1.matchedCases) ∧
    (∀ env db pid fid mc, ∀ k ∈ dbKeys (compareSpecificReports env db pid fid mc).1,
      k ∈ dbKeys db ∨ canonicalKeyOK db k) ∧
    (∀ db p f c (ex : MatchedCase), findPair db p f = some ex →
      vectorUpsert db p f c = (db, none)) ∧
    (∀ db p f c (ex : MatchedCase), findPair db p f = some ex →
      (upsertMatched db p f c).1.matchedCases.length = db.matchedCases.length) ∧
    (∀ env db rid rt, (∀ r, env.fails r = false) →
      (findMatchesVec env (findMatchesVec env db rid rt).1 rid rt).1 =
        (findMatchesVec env db rid rt).1) ∧
    (∀ env db rid rt src t, (∀ r, env.fails r = false) → PairUnique db.matchedCases →
      vecSource db rid rt = some src → t ∈ vecTargets db rid rt → accepts src t →
      countPair (findMatchesVec env db rid rt).1 (canonicalPair rt rid t.id) = 1) := by
  refine ⟨fun env db rid rt h => (findMatchesVec_invariants env db rid rt).2.2.2.1 h,
    fun env db rid rt => (findMatchesVec_invariants env db rid rt).2.2.2.2,
    fun env db pid mc h => (findMatchesForParentReport_invariants env db pid mc).2.2.1 h,
    fun env db pid mc => (findMatchesForParentReport_invariants env db pid mc).2.2.2,
    fun env db fid mc h => (findMatchesForFinderReport_invariants env db fid mc).2.2.1 h,
    fun env db fid mc => (findMatchesForFinderReport_invariants env db fid mc).2.2.2,
    fun env db pid fid mc h =>
      (compareSpecificReports_invariants env db pid fid mc).2.2.1 h,
    fun env db pid fid mc => (compareSpecificReports_invariants env db pid fid mc).2.2.2,
    fun db p f c ex h => vectorUpsert_existing h, ?_,
    fun env db rid rt henv => (findMatchesVec_idempotent env henv db rid rt).1,
    fun env db rid rt src t henv hu hsrc ht hacc =>
      findMatchesVec_count_one env henv db rid rt hu hsrc ht hacc⟩
  intro db p f c ex h
  rw [(upsertMatched_existing h).1]
  simp [updateMatchedCase]

/-- C1 witness: one parent, two accepted finders, empty match table; a
clean run creates canonical rows, is idempotent, and stores exactly one
row for the pair (1, 2). -/
theorem claim_C1_witness :
    PairUnique dbC8.matchedCases ∧
    PairUnique (findMatchesVec cleanNotify dbC8 1 .PARENT).1.matchedCases ∧
    (findMatchesVec cleanNotify (findMatchesVec cleanNotify dbC8 1 .PARENT).1
        1 .PARENT).1 = (findMatchesVec cleanNotify dbC8 1 .PARENT).1 ∧
    countPair (findMatchesVec cleanNotify dbC8 1 .PARENT).1
      (canonicalPair .PARENT 1 exFinder.id) = 1 := by
  have hu : PairUnique dbC8.matchedCases := by simp [PairUnique, dbC8]
  have henv : ∀ r, cleanNotify.fails r = false := fun _ => rfl
  have hmem : exFinder ∈ vecTargets dbC8 1 .PARENT := by
    rw [show vecTargets dbC8 1 .PARENT = [exFinder, exFinder3] from rfl]
    exact List.mem_cons_self _ _
  exact ⟨hu, claim_C1_pair_uniqueness.1 cleanNotify dbC8 1 .PARENT hu,
    claim_C1_pair_uniqueness.2.2.2.2.2.2.2.2.2.2.1 cleanNotify dbC8 1 .PARENT henv,
    claim_C1_pair_uniqueness.2.2.2.2.2.2.2.2.2.2.2 cleanNotify dbC8 1 .PARENT
      exParent exFinder henv hu rfl hmem accepts_exFinder⟩

/-- C2 counterexample: in `dbC2` the candidate pair (1, 2) is accepted
with best score 1, and a row for the pair already exists with stale
confidence 1/5 and status PENDING — yet after a full vector-resolver
run the table is unchanged: nothing was overwritten and no status became
MATCHED, contradicting the claimed upsert contract on that path. -/
theorem claim_C2_counterexample :
    accepts exParent exFinder ∧
    bestSimilarity exParent exFinder = 1 ∧
    findPair dbC2 1 2 = some staleRec ∧
    staleRec.matchConfidence = 1 / 5 ∧
    staleRec.status = MatchStatus.PENDING ∧
    (findMatchesVec cleanNotify dbC2 1 .PARENT).1.matchedCases = [staleRec] := by
  refine ⟨accepts_exFinder, bestSim_exFinder, rfl, rfl, rfl, ?_⟩
  rw [findMatchesVec_dbC2_eval]
  rfl

/-- C2 (amended): the upsert contract as stated holds only on the
oracle-based controller paths — there an existing row gets its
confidence overwritten and its status set to MATCHED, and a missing row
is created with status MATCHED.  The vector-based path (`findMatches` in
caseService) instead leaves an existing row entirely untouched and
creates missing rows with status PENDING (carrying the new
confidence). -/
theorem claim_C2_upsert_contract :
    (∀ db p f c (ex : MatchedCase), findPair db p f = some ex →
      (upsertMatched db p f c).1.matchedCases = db.matchedCases.map (fun m =>
        if m.id = ex.id then
          { m with matchConfidence := c, status := MatchStatus.MATCHED } else m)) ∧
    (∀ db p f c, findPair db p f = none →
      (upsertMatched db p f c).1.matchedCases
          = db.matchedCases ++ [(upsertMatched db p f c).2] ∧
      (upsertMatched db p f c).2.status = MatchStatus.MATCHED ∧
      (upsertMatched db p f c).2.matchConfidence = c ∧
      (upsertMatched db p f c).2.notificationSent = false) ∧
    (∀ db p f c (ex : MatchedCase), findPair db p f = some ex →
      vectorUpsert db p f c = (db, none)) ∧
    (∀ db p f c, findPair db p f = none →
      (vectorUpsert db p f c).1.matchedCases
          = db.matchedCases ++ [freshRow db (p, f) c] ∧
      (freshRow db (p, f) c).status = MatchStatus.PENDING ∧
      (freshRow db (p, f) c).matchConfidence = c) := by
  refine ⟨?_, ?_, fun db p f c ex h => vectorUpsert_existing h, ?_⟩
  · intro db p f c ex h
    rw [(upsertMatched_existing h).1]
    rfl
  · intro db p f c h
    rw [upsertMatched_fresh h]
    exact ⟨(createMatchedCase_fields db p f c .MATCHED).1,
      (createMatchedCase_fields db p f c .MATCHED).2.2.2.2.1,
      (createMatchedCase_fields db p f c .MATCHED).2.2.2.1,
      (createMatchedCase_fields db p f c .MATCHED).2.2.2.2.2⟩
  · intro db p f c h
    rw [vectorUpsert_fresh h]
    exact ⟨by simp [createMatchedCase, freshRow], rfl, rfl⟩

/-- C2 witness: both branches of both disciplines at concrete stores. -/
theorem claim_C2_witness :
    (findPair dbC2 1 2 = some staleRec ∧
      (upsertMatched dbC2 1 2 (3 / 4)).1.matchedCases =
        [{ staleRec with matchConfidence := 3 / 4, status := MatchStatus.MATCHED }]) ∧
    (findPair dbC8 1 2 = none ∧
      (upsertMatched dbC8 1 2 (9 / 10)).2.status = MatchStatus.MATCHED) ∧
    vectorUpsert dbC2 1 2 (3 / 4) = (dbC2, none) ∧
    (freshRow dbC8 (1, 2) (9 / 10)).status = MatchStatus.PENDING := by
  refine ⟨⟨rfl, ?_⟩, ⟨rfl, (claim_C2_upsert_contract.2.1 dbC8 1 2 (9 / 10) rfl).2.1⟩,
    claim_C2_upsert_contract.2.2.1 dbC2 1 2 (3 / 4) staleRec rfl,
    (claim_C2_upsert_contract.2.2.2 dbC8 1 2 (9 / 10) rfl).2.1⟩
  rw [claim_C2_upsert_contract.1 dbC2 1 2 (3 / 4) staleRec rfl]
  rfl

/-- C3: the best score of a source report against a candidate is the
maximum of `calculateSimilarity` over the comparable image pairs (both
vectors non-empty), taken as 0 when there are none — in which case the
candidate is never accepted; the threshold is 0.7 = 7/10, and acceptance
is exactly `bestScore ≥ 0.7`, inclusive at the boundary. -/
theorem claim_C3_best_score_and_threshold :
    (∀ s t : Report, bestSimilarity s t = specBestScore s t) ∧
    (∀ s t : Report, ∀ p ∈ comparablePairs s t,
      calculateSimilarity p.1.embeddingVector p.2.embeddingVector ≤ bestSimilarity s t) ∧
    (∀ s t : Report, bestSimilarity s t = 0 ∨
      ∃ p ∈ comparablePairs s t,
        bestSimilarity s t = calculateSimilarity p.1.embeddingVector p.2.embeddingVector) ∧
    (∀ s t : Report, comparablePairs s t = [] →
      bestSimilarity s t = 0 ∧ ¬ accepts s t) ∧
    SIMILARITY_THRESHOLD = 7 / 10 ∧
    (∀ s t : Report, accepts s t ↔ 7 / 10 ≤ bestSimilarity s t) ∧
    (∀ s t : Report, bestSimilarity s t = 7 / 10 → accepts s t) ∧
    (∀ s t : Report, bestSimilarity s t < 7 / 10 → ¬ accepts s t) := by
  have hth : SIMILARITY_THRESHOLD = 7 / 10 := by norm_num [SIMILARITY_THRESHOLD]
  have hiff : ∀ s t : Report, accepts s t ↔ 7 / 10 ≤ bestSimilarity s t := by
    intro s t
    unfold accepts
    rw [hth]
  refine ⟨bestSimilarity_eq_spec, ?_, ?_, ?_, hth, hiff,
    fun s t h => (hiff s t).2 (le_of_eq h.symm),
    fun s t h hacc => absurd ((hiff s t).1 hacc) (not_le.2 h)⟩
  · intro s t p hp
    rw [bestSimilarity_eq_spec, specBestScore]
    exact (foldl_max_is_ub _ 0).2 _ (List.mem_map.2 ⟨p, hp, rfl⟩)
  · intro s t
    rw [bestSimilarity_eq_spec, specBestScore]
    rcases foldl_max_attained ((comparablePairs s t).map
        (fun p => calculateSimilarity p.1.embeddingVector p.2.embeddingVector)) 0 with h | h
    · exact Or.inl h
    · obtain ⟨p, hp, hpe⟩ := List.mem_map.1 h
      exact Or.inr ⟨p, hp, hpe.symm⟩
  · intro s t h
    have h0 := bestSimilarity_empty h
    refine ⟨h0, fun hacc => ?_⟩
    have := (hiff s t).1 hacc
    rw [h0] at this
    norm_num at this

/-- C3 witness: a pair whose best score is exactly the 0.7 boundary is
accepted; an orthogonal pair scoring 1/2 is rejected. -/
theorem claim_C3_witness :
    bestSimilarity bSrc bTgt = 7 / 10 ∧ accepts bSrc bTgt ∧
    bestSimilarity exParent oTgt = 1 / 2 ∧ ¬ accepts exParent oTgt :=
  ⟨bestSim_bTgt,
    claim_C3_best_score_and_threshold.2.2.2.2.2.2.1 bSrc bTgt bestSim_bTgt,
    bestSim_oTgt,
    claim_C3_best_score_and_threshold.2.2.2.2.2.2.2 exParent oTgt
      (by rw [bestSim_oTgt]; norm_num)⟩

/-- C8 counterexample: over `dbC8` (one parent, two accepted finder
candidates, failing parent-owner notifications) the vector resolver
creates the row for the first candidate, then the notification throws
and the whole call aborts with the error — the second accepted
candidate is never examined and gets no row, contradicting the claimed
per-candidate resilience of `findMatches`. -/
theorem claim_C8_counterexample :
    accepts exParent exFinder3 ∧
    (findMatchesVec failEnv dbC8 1 .PARENT).2 = .error "notification failed" ∧
    dbKeys (findMatchesVec failEnv dbC8 1 .PARENT).1 = [(1, 2)] ∧
    (1, 3) ∉ dbKeys (findMatchesVec failEnv dbC8 1 .PARENT).1 := by
  refine ⟨accepts_exFinder3, ?_, ?_, ?_⟩
  · rw [findMatchesVec_dbC8_eval]
  · rw [findMatchesVec_dbC8_eval]
    rfl
  · rw [findMatchesVec_dbC8_eval]
    simp [dbKeys, createMatchedCase, pairKey, dbC8]

/-- C8 (amended): only the per-pair similarity computation of
`findMatches` is guarded per candidate.  On the controller path a
notification failure is swallowed: which rows are persisted, with which
confidence and status, and the response, are independent of
notification-delivery outcomes (only `notificationSent` flags and the
notification rows differ).  On the vector path records are never rolled
back — the table only grows — but a notification failure on one
candidate aborts the loop with the freshly created row already
persisted, propagating the error instead of continuing with the
remaining candidates. -/
theorem claim_C8_resilience :
    (∀ (env : OracleEnv) (n2 : NotifyEnv) db pid mc,
      FlagAgnostic (findMatchesForParentReport env db pid mc).1
          (findMatchesForParentReport { env with notify := n2 } db pid mc).1 ∧
      (findMatchesForParentReport env db pid mc).2 =
          (findMatchesForParentReport { env with notify := n2 } db pid mc).2) ∧
    (∀ env db rid rt, ∃ tail,
      (findMatchesVec env db rid rt).1.matchedCases = db.matchedCases ++ tail) ∧
    (∀ env rt rid (src : Report) db (t : Report) ts, accepts src t →
      findPair db (canonicalPair rt rid t.id).1 (canonicalPair rt rid t.id).2 = none →
      env.fails (some (parentOwner db (canonicalPair rt rid t.id).1)) = true →
      vectorLoop env rt rid src (t :: ts) db =
        ((createMatchedCase db (canonicalPair rt rid t.id).1
            (canonicalPair rt rid t.id).2 (bestSimilarity src t) MatchStatus.PENDING).1,
          .error "notification failed")) :=
  ⟨fun env n2 db pid mc => findMatchesForParentReport_notifyIndependent env n2 db pid mc,
    fun env db rid rt => (findMatchesVec_invariants env db rid rt).2.2.1,
    fun env rt rid src db t ts hacc hfp hfail =>
      vectorLoop_abort env rt rid src db t ts hacc hfp hfail⟩

/-- C8 witness: the abort equation at the concrete store `dbC8`. -/
theorem claim_C8_witness :
    accepts exParent exFinder ∧
    findPair dbC8 (canonicalPair .PARENT 1 exFinder.id).1
        (canonicalPair .PARENT 1 exFinder.id).2 = none ∧
    failEnv.fails (some (parentOwner dbC8 (canonicalPair .PARENT 1 exFinder.id).1)) = true ∧
    vectorLoop failEnv .PARENT 1 exParent [exFinder, exFinder3] dbC8 =
      ((createMatchedCase dbC8 (canonicalPair .PARENT 1 exFinder.id).1
          (canonicalPair .PARENT 1 exFinder.id).2
          (bestSimilarity exParent exFinder) MatchStatus.PENDING).1,
        .error "notification failed") :=
  ⟨accepts_exFinder, rfl, rfl,
    claim_C8_resilience.2.2 failEnv .PARENT 1 exParent dbC8 exFinder [exFinder3]
      accepts_exFinder rfl rfl⟩

end CcBackend









